import Mathlib

/-!
# BrainGrid: synapse store and network orchestrator

A shallow embedding of `DynamicSpikingSynapse_struct.cpp` and `Network.cpp`.

Conventions of the embedding.

* `FLOAT` values are carried as exact integers.  The functions embedded here copy
  them or store integer constants; the floating-point division (in `Network::reset`),
  the floating-point products of the constructor and the conversion of a sampled value
  to `FLOAT` (in `Network::initNeurons`) are parameters of the model.
* A heap array is a `List`; an access past its end is undefined behaviour in the
  source and is the result `none` here.
* The random generator is a stream of draws (`Nat → ℚ`) together with the number of
  draws consumed so far.
* An output stream is the list of the pieces written to it.  A call that a failing
  assertion or an access past the end of an array ends is a result of its own; what
  the run had done by then is kept.
-/

namespace BrainGrid

/-! ## Basic types -/

/-- The floating-point type `FLOAT` of the sources, carried as an exact value. -/
abbrev FLOAT := Int

/-- The type `Coordinate`: a pair of grid coordinates. -/
structure Coordinate where
  x : Int
  y : Int
deriving DecidableEq, Repr, Inhabited

/-- The enumeration `synapseType`, by the types of the two neurons it joins. -/
inductive synapseType where
  | II
  | IE
  | EI
  | EE
deriving DecidableEq, Repr, Inhabited

/-- The fields of a `DynamicSpikingSynapse` that the store functions read or write.
`summationPoint` is the binding to the accumulator slot of the destination neuron
(a reference in the source), carried as an address. -/
structure DynamicSpikingSynapse where
  summationCoord : Coordinate
  synapseCoord : Coordinate
  summationPoint : Nat
  deltaT : FLOAT
  W : FLOAT
  psr : FLOAT
  decay : FLOAT
  total_delay : Int
  type : synapseType
  delayQueue : List Nat
  ldelayQueue : Int
  tau : FLOAT
  r : FLOAT
  u : FLOAT
  lastSpike : Nat
deriving DecidableEq, Repr, Inhabited

/-- The struct-of-arrays store `DynamicSpikingSynapse_struct`: one array per field,
indexed by slot.  `summationPoint` holds pointers, `0` being the null pointer. -/
structure DynamicSpikingSynapse_struct where
  inUse : List Bool
  summationPoint : List Nat
  summationCoord : List Coordinate
  synapseCoord : List Coordinate
  deltaT : List FLOAT
  W : List FLOAT
  psr : List FLOAT
  decay : List FLOAT
  total_delay : List Int
  type : List synapseType
  delayQueue : List Nat
  ldelayQueue : List Int
  tau : List FLOAT
  r : List FLOAT
  u : List FLOAT
  lastSpike : List Nat
deriving DecidableEq, Repr, Inhabited

/-- The assignment `a[i] = v` on a heap array: `none` when `i` is past the end. -/
def setAt {α : Type} (a : List α) (i : Nat) (v : α) : Option (List α) :=
  if i < a.length then some (a.set i v) else none

/-! ## DynamicSpikingSynapse_struct.cpp -/

/-- Slot `idx` exists in every array of the store: the sixteen arrays that
`copySynapseToStruct` assigns to. -/
def validSlot (st : DynamicSpikingSynapse_struct) (idx : Nat) : Prop :=
  idx < st.inUse.length ∧ idx < st.summationPoint.length ∧ idx < st.summationCoord.length ∧
  idx < st.synapseCoord.length ∧ idx < st.deltaT.length ∧ idx < st.W.length ∧
  idx < st.psr.length ∧ idx < st.decay.length ∧ idx < st.total_delay.length ∧
  idx < st.type.length ∧ idx < st.delayQueue.length ∧ idx < st.ldelayQueue.length ∧
  idx < st.tau.length ∧ idx < st.r.length ∧ idx < st.u.length ∧ idx < st.lastSpike.length

instance (st : DynamicSpikingSynapse_struct) (idx : Nat) : Decidable (validSlot st idx) := by
  unfold validSlot; infer_instance

/-- Slot `idx` exists in each of the thirteen arrays that `copyStructToSynapse` reads. -/
def readableSlot (st : DynamicSpikingSynapse_struct) (idx : Nat) : Prop :=
  idx < st.W.length ∧ idx < st.decay.length ∧ idx < st.deltaT.length ∧
  idx < st.lastSpike.length ∧ idx < st.psr.length ∧ idx < st.r.length ∧
  idx < st.summationCoord.length ∧ idx < st.synapseCoord.length ∧ idx < st.tau.length ∧
  idx < st.total_delay.length ∧ idx < st.u.length ∧ idx < st.type.length ∧
  idx < st.delayQueue.length

instance (st : DynamicSpikingSynapse_struct) (idx : Nat) : Decidable (readableSlot st idx) := by
  unfold readableSlot; infer_instance

/-- The function `copySynapseToStruct(in, out, idx)`: the assignments of the source, in
source order.  The result is `none` when `in.delayQueue[0]` or slot `idx` of one of
the arrays does not exist. -/
def copySynapseToStruct (inp : DynamicSpikingSynapse) (out : DynamicSpikingSynapse_struct)
    (idx : Nat) : Option DynamicSpikingSynapse_struct :=
  match inp.delayQueue with
  | [] => none
  | d0 :: _ =>
    if validSlot out idx then
      some { inUse := out.inUse.set idx true,
             W := out.W.set idx inp.W,
             decay := out.decay.set idx inp.decay,
             deltaT := out.deltaT.set idx inp.deltaT,
             lastSpike := out.lastSpike.set idx inp.lastSpike,
             psr := out.psr.set idx inp.psr,
             r := out.r.set idx inp.r,
             summationCoord := out.summationCoord.set idx inp.summationCoord,
             synapseCoord := out.synapseCoord.set idx inp.synapseCoord,
             summationPoint := out.summationPoint.set idx 0,
             tau := out.tau.set idx inp.tau,
             total_delay := out.total_delay.set idx inp.total_delay,
             u := out.u.set idx inp.u,
             ldelayQueue := out.ldelayQueue.set idx inp.ldelayQueue,
             type := out.type.set idx inp.type,
             delayQueue := out.delayQueue.set idx d0 }
    else none

/-- The function `copyStructToSynapse(in, out, idx)`: the thirteen assignments of the
source, in source order.  The fields of `out` that the source does not assign
(`summationPoint`, `ldelayQueue`, the delay queue past word 0) keep their value.
The result is `none` when `out.delayQueue[0]` or slot `idx` of one of the arrays
read does not exist. -/
def copyStructToSynapse (inp : DynamicSpikingSynapse_struct) (out : DynamicSpikingSynapse)
    (idx : Nat) : Option DynamicSpikingSynapse :=
  match out.delayQueue with
  | [] => none
  | _ :: rest =>
    if readableSlot inp idx then
      some { summationPoint := out.summationPoint,
             ldelayQueue := out.ldelayQueue,
             W := inp.W.getD idx 0,
             decay := inp.decay.getD idx 0,
             deltaT := inp.deltaT.getD idx 0,
             lastSpike := inp.lastSpike.getD idx 0,
             psr := inp.psr.getD idx 0,
             r := inp.r.getD idx 0,
             summationCoord := inp.summationCoord.getD idx default,
             synapseCoord := inp.synapseCoord.getD idx default,
             tau := inp.tau.getD idx 0,
             total_delay := inp.total_delay.getD idx 0,
             u := inp.u.getD idx 0,
             type := inp.type.getD idx default,
             delayQueue := inp.delayQueue.getD idx 0 :: rest }
    else none

/-- The body of the inner loop of `synapseArrayToMap` for slot offset `j` of neuron
`neuron_i`; the state is the shared local `syn` and the array of lists. -/
def synapseArrayToMapSlot (synapse_st : DynamicSpikingSynapse_struct) (maxSynapses neuron_i : Nat)
    (state : DynamicSpikingSynapse × List (List DynamicSpikingSynapse)) (j : Nat) :
    Option (DynamicSpikingSynapse × List (List DynamicSpikingSynapse)) :=
  match synapse_st.inUse[neuron_i * maxSynapses + j]? with
  | none => none
  | some false => some state
  | some true =>
    match copyStructToSynapse synapse_st state.1 (neuron_i * maxSynapses + j) with
    | none => none
    | some syn =>
      match state.2[neuron_i]? with
      | none => none
      | some lst => some (syn, state.2.set neuron_i (lst ++ [syn]))

/-- The body of the outer loop of `synapseArrayToMap`: clear the list of `neuron_i`,
then run the inner loop over `j = 0 .. maxSynapses - 1`. -/
def synapseArrayToMapNeuron (synapse_st : DynamicSpikingSynapse_struct) (maxSynapses : Nat)
    (state : DynamicSpikingSynapse × List (List DynamicSpikingSynapse)) (neuron_i : Nat) :
    Option (DynamicSpikingSynapse × List (List DynamicSpikingSynapse)) :=
  match setAt state.2 neuron_i [] with
  | none => none
  | some cleared =>
    (List.range maxSynapses).foldlM (synapseArrayToMapSlot synapse_st maxSynapses neuron_i)
      (state.1, cleared)

/-- The function `synapseArrayToMap(synapse_st, synapseMap, numNeurons, maxSynapses)`.
The local `syn` is built by a constructor that is not part of these sources; its
value `syn0` is a parameter.  The result is the array of lists after the call. -/
def synapseArrayToMap (syn0 : DynamicSpikingSynapse) (synapse_st : DynamicSpikingSynapse_struct)
    (synapseMap : List (List DynamicSpikingSynapse)) (numNeurons maxSynapses : Nat) :
    Option (List (List DynamicSpikingSynapse)) :=
  ((List.range numNeurons).foldlM (synapseArrayToMapNeuron synapse_st maxSynapses)
    (syn0, synapseMap)).map Prod.snd

/-- The in-use slots of neuron `n`, in ascending slot order: the indices `idx` of the
range `[n * maxSynapses, (n + 1) * maxSynapses)` whose `inUse` flag is set. -/
def inUseSlots (st : DynamicSpikingSynapse_struct) (maxSynapses n : Nat) : List Nat :=
  ((List.range maxSynapses).map (fun j => n * maxSynapses + j)).filter
    (fun idx => st.inUse[idx]? = some true)

/-- A synapse with every field set to a value of its own. -/
def c1_s : DynamicSpikingSynapse :=
  { summationCoord := ⟨1, 0⟩, synapseCoord := ⟨0, 1⟩, summationPoint := 7, deltaT := 1, W := 2,
    psr := 3, decay := 4, total_delay := 5, type := synapseType.EI, delayQueue := [6],
    ldelayQueue := 32, tau := 8, r := 9, u := 10, lastSpike := 11 }

/-- The synapse a slot is read into: every field zero. -/
def c1_out : DynamicSpikingSynapse :=
  { summationCoord := ⟨0, 0⟩, synapseCoord := ⟨0, 0⟩, summationPoint := 0, deltaT := 0, W := 0,
    psr := 0, decay := 0, total_delay := 0, type := synapseType.II, delayQueue := [0],
    ldelayQueue := 0, tau := 0, r := 0, u := 0, lastSpike := 0 }

/-- A store of `count` slots, none in use, every field zero. -/
def zeroStore (count : Nat) : DynamicSpikingSynapse_struct :=
  { inUse := List.replicate count false, summationPoint := List.replicate count 0,
    summationCoord := List.replicate count ⟨0, 0⟩,
    synapseCoord := List.replicate count ⟨0, 0⟩, deltaT := List.replicate count 0,
    W := List.replicate count 0, psr := List.replicate count 0,
    decay := List.replicate count 0, total_delay := List.replicate count 0,
    type := List.replicate count synapseType.II, delayQueue := List.replicate count 0,
    ldelayQueue := List.replicate count 0, tau := List.replicate count 0,
    r := List.replicate count 0, u := List.replicate count 0,
    lastSpike := List.replicate count 0 }

/-- A store of one slot, not in use, every field zero. -/
def c1_store : DynamicSpikingSynapse_struct := zeroStore 1

/-- A store of four slots (two neurons, two slots each) with slots 1 and 2 in use. -/
def c2_store : DynamicSpikingSynapse_struct :=
  { zeroStore 4 with inUse := [false, true, true, false], W := [0, 5, 6, 0] }

/-! ## Network.cpp: data -/

/-- The enumeration `neuronType` as far as `Network.cpp` tells its values apart.  An
array element that is neither (fresh from `new neuronType[n]`, the `default:` branch
of the switches) is `none` in a `List (Option neuronType)`. -/
inductive neuronType where
  | INH
  | EXC
deriving DecidableEq, Repr, Inhabited

/-- The members of a neuron that `Network.cpp` assigns: the seven arguments of
`setParams` and `Trefract`.  The class is not part of these sources. -/
structure Neuron where
  Iinject : FLOAT
  Inoise : FLOAT
  Vthresh : FLOAT
  Vresting : FLOAT
  Vreset : FLOAT
  Vinit : FLOAT
  deltaT : FLOAT
  Trefract : FLOAT
deriving DecidableEq, Repr, Inhabited

/-- The scalar members of `SimulationInfo` (`m_si`).  Its pointer members
(`rgNeuronTypeMap`, `rgEndogenouslyActiveNeuronMap`, `pNeuronList`, `rgSynapseMap`,
`pSummationMap`) alias the arrays of the `Network` and are not duplicated here. -/
structure SimulationInfo where
  stepDuration : FLOAT
  maxSteps : Int
  maxFiringRate : Int
  maxSynapsesPerNeuron : Int
  width : Nat
  height : Nat
  cNeurons : Nat
  currentStep : Nat
  deltaT : FLOAT
  epsilon : FLOAT
  beta : FLOAT
  rho : FLOAT
  maxRate : FLOAT
  minRadius : FLOAT
  startRadius : FLOAT
deriving DecidableEq, Repr, Inhabited

/-- The state of a `Network`: its data members, and the two globals its member
functions use, the step counter `g_simulationStep` and the random generator `rng`,
of which `rngCount` is the number of draws already consumed.  Counts and sizes are
natural numbers. -/
structure Network where
  m_width : Nat
  m_height : Nat
  m_cNeurons : Nat
  m_cExcitoryNeurons : Nat
  m_cInhibitoryNeurons : Nat
  m_cStarterNeurons : Nat
  m_deltaT : FLOAT
  m_rgSynapseMap : List (List DynamicSpikingSynapse)
  m_summationMap : List FLOAT
  m_rgNeuronTypeMap : List (Option neuronType)
  m_rgEndogenouslyActiveNeuronMap : List Bool
  m_epsilon : FLOAT
  m_beta : FLOAT
  m_rho : FLOAT
  m_targetRate : FLOAT
  m_maxRate : FLOAT
  m_minRadius : FLOAT
  m_startRadius : FLOAT
  m_fWriteMemImage : Bool
  m_fReadMemImage : Bool
  m_fFixedLayout : Bool
  m_pEndogenouslyActiveNeuronLayout : List Int
  m_pInhibitoryNeuronLayout : List Int
  m_neuronList : List Neuron
  m_si : SimulationInfo
  g_simulationStep : Nat
  rngCount : Nat

/-- What `Network.cpp` takes from outside these sources: the floating-point arithmetic on
`FLOAT` values it uses, and what headers that are not part of them supply. -/
structure Externals where
  /-- The floating-point division of `FLOAT` values. -/
  fdiv : FLOAT → FLOAT → FLOAT
  /-- The floating-point product `n * f` of an `int` and a `FLOAT`: the `int` is converted
  to `FLOAT` and the product is rounded to a `FLOAT`.  For a product that is infinite or
  not a number any value outside the range of `int` serves: its conversion to `int` is
  undefined either way. -/
  fmul : Int → ℚ → ℚ
  /-- A default-constructed neuron, as `m_neuronList.resize` makes them. -/
  newNeuron : Neuron
  /-- The value a matrix built with `init = "const"` and no multiplier argument is
  filled with. -/
  matrixInit : FLOAT
  /-- The numeric value of a `neuronType` when it is stored in a matrix. -/
  neuronTypeValue : neuronType → FLOAT
  DEFAULT_InhibTrefract : FLOAT
  DEFAULT_ExcitTrefract : FLOAT
  /-- What `Network::readSimMemory` reads from the stream `memory_in`, whose content and
  record formats are not part of these sources: the neuron list, the synapse lists and
  the vectors `radii` and `rates` after the read, or `none` when its assertion fails. -/
  readSimMemory : Network → List FLOAT → List FLOAT →
    Option (List Neuron × List (List DynamicSpikingSynapse) × List FLOAT × List FLOAT)

/-- How a loop that need not end came out: `done` with its result, `outOfFuel` when
the iterations allowed did not suffice, `undefined` when it read or wrote past the
end of an array. -/
inductive Outcome (α : Type) where
  | done : α → Outcome α
  | outOfFuel : Outcome α
  | undefined : Outcome α

/-- The conversion `static_cast<int>(v)`: truncation toward zero. -/
def static_cast_int (v : ℚ) : Int :=
  if 0 ≤ v then Int.floor v else Int.ceil v

/-- The read `a[i]` with an `int` index: `none` for a negative index or one past the
end. -/
def getAtInt {α : Type} (a : List α) (i : Int) : Option α :=
  if 0 ≤ i then a[i.toNat]? else none

/-- The assignment `a[i] = v` with an `int` index: `none` for a negative index or one
past the end. -/
def setAtInt {α : Type} (a : List α) (i : Int) (v : α) : Option (List α) :=
  if 0 ≤ i then setAt a i.toNat v else none

/-! ## Network.cpp: reset -/

/-- The function `Network::freeResources`: the four arrays are released. -/
def freeResources (net : Network) : Network :=
  { net with m_rgEndogenouslyActiveNeuronMap := [], m_rgSynapseMap := [],
             m_rgNeuronTypeMap := [], m_summationMap := [] }

/-- The function `Network::reset`.  The type map is allocated and not assigned (every
element `none`); the starter map and the accumulator are allocated and then assigned
`false` and `0` at every index by the loop; the neuron list is cleared and resized. -/
def reset (ext : Externals) (net0 : Network) : Network :=
  let net := freeResources net0
  { net with
    g_simulationStep := 0
    m_maxRate := ext.fdiv net.m_targetRate net.m_epsilon
    m_rgNeuronTypeMap := List.replicate net.m_cNeurons none
    m_rgEndogenouslyActiveNeuronMap := List.replicate net.m_cNeurons false
    m_neuronList := List.replicate net.m_cNeurons ext.newNeuron
    m_rgSynapseMap := List.replicate net.m_cNeurons []
    m_summationMap := List.replicate net.m_cNeurons 0
    m_si := { net.m_si with cNeurons := net.m_cNeurons, deltaT := net.m_deltaT } }

/-- Two states are of the same configuration: they agree on what the constructor
takes from its arguments (sizes, counts, constants, flags and layouts). -/
def sameConfiguration (a b : Network) : Prop :=
  a.m_width = b.m_width ∧ a.m_height = b.m_height ∧ a.m_cNeurons = b.m_cNeurons ∧
  a.m_cExcitoryNeurons = b.m_cExcitoryNeurons ∧
  a.m_cInhibitoryNeurons = b.m_cInhibitoryNeurons ∧
  a.m_cStarterNeurons = b.m_cStarterNeurons ∧ a.m_deltaT = b.m_deltaT ∧
  a.m_epsilon = b.m_epsilon ∧ a.m_beta = b.m_beta ∧ a.m_rho = b.m_rho ∧
  a.m_targetRate = b.m_targetRate ∧ a.m_minRadius = b.m_minRadius ∧
  a.m_startRadius = b.m_startRadius ∧ a.m_fWriteMemImage = b.m_fWriteMemImage ∧
  a.m_fReadMemImage = b.m_fReadMemImage ∧ a.m_fFixedLayout = b.m_fFixedLayout ∧
  a.m_pEndogenouslyActiveNeuronLayout = b.m_pEndogenouslyActiveNeuronLayout ∧
  a.m_pInhibitoryNeuronLayout = b.m_pInhibitoryNeuronLayout

/-! ## Network.cpp: neuron types -/

/-- The shuffle loop of `getNeuronOrder` (`while (!orderedNeurons.empty())`): one draw
per iteration, `i = static_cast<int>(rng() * orderedNeurons.size())`, the element at
`i` is appended to the result and erased from the ordered list.  The arguments are
the ordered list, the result so far and the number of draws consumed. -/
def shuffleLoop (draws : Nat → ℚ) (orderedNeurons randomlyOrderedNeurons : List neuronType)
    (count : Nat) : Option (List neuronType × Nat) :=
  if orderedNeurons = [] then
    some (randomlyOrderedNeurons, count)
  else
    let i := static_cast_int (draws count * orderedNeurons.length)
    if h : 0 ≤ i ∧ i.toNat < orderedNeurons.length then
      shuffleLoop draws (orderedNeurons.eraseIdx i.toNat)
        (randomlyOrderedNeurons ++ [orderedNeurons[i.toNat]]) (count + 1)
    else
      none
termination_by orderedNeurons.length
decreasing_by
  rw [List.length_eraseIdx]
  simp only [h.2, if_true]
  omega

/-- The function `Network::getNeuronOrder`: the vector it returns and the state after
the call.  In fixed-layout mode the vector is resized to `m_cNeurons`, every element
is set to `EXC` and then the element at each index of the layout to `INH`.
Otherwise the first `m_cInhibitoryNeurons` elements of the ordered list are set to
`INH` and the list is shuffled. -/
def getNeuronOrder (draws : Nat → ℚ) (net : Network) : Option (List neuronType × Network) :=
  if net.m_fFixedLayout then
    match net.m_pInhibitoryNeuronLayout.foldlM (fun v idx => setAtInt v idx neuronType.INH)
        (List.replicate net.m_cNeurons neuronType.EXC) with
    | none => none
    | some v => some (v, net)
  else
    match (List.range net.m_cInhibitoryNeurons).foldlM (fun v i => setAt v i neuronType.INH)
        (List.replicate net.m_cNeurons neuronType.EXC) with
    | none => none
    | some orderedNeurons =>
      match shuffleLoop draws orderedNeurons [] net.rngCount with
      | none => none
      | some (v, count) => some (v, { net with rngCount := count })

/-- The loop `for (i = 0; i < n; i++) a[i] = f(i)`, where computing `f(i)` can itself
fail. -/
def assignEach {α : Type} (n : Nat) (f : Nat → Option α) (a : List α) : Option (List α) :=
  (List.range n).foldlM (fun acc i => match f i with
    | none => none
    | some v => setAt acc i v) a

/-- The function `Network::initNeuronTypeMap`: element `i` of the vector from
`getNeuronOrder` is copied to `m_rgNeuronTypeMap[i]` for `i = 0 .. m_cNeurons - 1`. -/
def initNeuronTypeMap (draws : Nat → ℚ) (net : Network) : Option Network :=
  match getNeuronOrder draws net with
  | none => none
  | some (randomDist, net1) =>
    match assignEach net1.m_cNeurons (fun i => (randomDist[i]?).map some)
        net1.m_rgNeuronTypeMap with
    | none => none
    | some tm => some { net1 with m_rgNeuronTypeMap := tm }

/-! ## Network.cpp: starter neurons -/

/-- Modelled from the spec: `rng.inRange(min, max)`, whose definition is not part of
these sources.  The spec has `assignStarterNeurons` sample "a uniformly random index"
with it: the next draw of `[0,1)` scaled to `[min, max)`.  The draw is the one at
position `count` of the stream. -/
def inRange (draws : Nat → ℚ) (count : Nat) (min max : ℚ) : ℚ :=
  min + draws count * (max - min)

/-- The loop `while (starters_allocated < m_cStarterNeurons)` of `initStarterMap`, run
for at most `fuel` iterations.  Each iteration consumes one draw,
`i = static_cast<int>(rng.inRange(0, m_cNeurons))`, and marks neuron `i` when it is
`EXC` and not yet marked. -/
def initStarterMapLoop (draws : Nat → ℚ) : Nat → Network → Nat → Outcome Network
  | 0, net, starters_allocated =>
    if starters_allocated < net.m_cStarterNeurons then Outcome.outOfFuel else Outcome.done net
  | fuel + 1, net, starters_allocated =>
    if starters_allocated < net.m_cStarterNeurons then
      let i := static_cast_int (inRange draws net.rngCount 0 net.m_cNeurons)
      let net1 := { net with rngCount := net.rngCount + 1 }
      match getAtInt net.m_rgNeuronTypeMap i with
      | none => Outcome.undefined
      | some t =>
        if t = some neuronType.EXC then
          match getAtInt net.m_rgEndogenouslyActiveNeuronMap i with
          | none => Outcome.undefined
          | some true => initStarterMapLoop draws fuel net1 starters_allocated
          | some false =>
            initStarterMapLoop draws fuel
              { net1 with m_rgEndogenouslyActiveNeuronMap :=
                  net.m_rgEndogenouslyActiveNeuronMap.set i.toNat true }
              (starters_allocated + 1)
        else
          initStarterMapLoop draws fuel net1 starters_allocated
    else
      Outcome.done net

/-- The function `Network::initStarterMap`.  In fixed-layout mode the element at each
index of the layout is set; otherwise the random loop runs from
`starters_allocated = 0`. -/
def initStarterMap (draws : Nat → ℚ) (fuel : Nat) (net : Network) : Outcome Network :=
  if net.m_fFixedLayout then
    match net.m_pEndogenouslyActiveNeuronLayout.foldlM (fun m idx => setAtInt m idx true)
        net.m_rgEndogenouslyActiveNeuronMap with
    | none => Outcome.undefined
    | some m => Outcome.done { net with m_rgEndogenouslyActiveNeuronMap := m }
  else
    initStarterMapLoop draws fuel net 0

/-- The number of elements of the type map that are `EXC`. -/
def excitatoryCount (net : Network) : Nat :=
  net.m_rgNeuronTypeMap.count (some neuronType.EXC)

/-- The number of neurons marked endogenously active. -/
def starterCount (net : Network) : Nat :=
  net.m_rgEndogenouslyActiveNeuronMap.count true

/-- The index that the draw at position `count` selects in `initStarterMap`. -/
def drawnIndex (draws : Nat → ℚ) (net : Network) (count : Nat) : Nat :=
  (static_cast_int (inRange draws count 0 net.m_cNeurons)).toNat

/-- The neurons that the next `L` draws select and that are `EXC` and not yet marked,
each once. -/
def suppliedStarters (draws : Nat → ℚ) (net : Network) (L : Nat) : Finset Nat :=
  ((Finset.range L).image (fun j => drawnIndex draws net (net.rngCount + j))).filter
    (fun i => net.m_rgNeuronTypeMap[i]? = some (some neuronType.EXC) ∧
      net.m_rgEndogenouslyActiveNeuronMap[i]? = some false)

/-- A `SimulationInfo` with every member zero. -/
def si0 : SimulationInfo :=
  { stepDuration := 0, maxSteps := 0, maxFiringRate := 0, maxSynapsesPerNeuron := 0,
    width := 0, height := 0, cNeurons := 0, currentStep := 0, deltaT := 0, epsilon := 0,
    beta := 0, rho := 0, maxRate := 0, minRadius := 0, startRadius := 0 }

/-- A network of `n` neurons in a row, in random mode, after `reset`: `k` inhibitory
and `m` starter neurons are asked for, the type map is not yet assigned. -/
def rowNetwork (n k m : Nat) : Network :=
  { m_width := n, m_height := 1, m_cNeurons := n, m_cExcitoryNeurons := n - k,
    m_cInhibitoryNeurons := k, m_cStarterNeurons := m, m_deltaT := 1,
    m_rgSynapseMap := List.replicate n [], m_summationMap := List.replicate n 0,
    m_rgNeuronTypeMap := List.replicate n none,
    m_rgEndogenouslyActiveNeuronMap := List.replicate n false,
    m_epsilon := 1, m_beta := 1, m_rho := 1, m_targetRate := 1, m_maxRate := 1,
    m_minRadius := 1, m_startRadius := 4, m_fWriteMemImage := false,
    m_fReadMemImage := false, m_fFixedLayout := false,
    m_pEndogenouslyActiveNeuronLayout := [], m_pInhibitoryNeuronLayout := [],
    m_neuronList := List.replicate n default, m_si := { si0 with cNeurons := n, deltaT := 1 },
    g_simulationStep := 0, rngCount := 0 }

/-- Two excitatory neurons, two starters asked for. -/
def twoExcitatory : Network :=
  { rowNetwork 2 0 2 with m_rgNeuronTypeMap := [some neuronType.EXC, some neuronType.EXC] }

/-- One excitatory neuron, two starters asked for. -/
def oneExcitatory : Network :=
  { rowNetwork 1 0 2 with m_rgNeuronTypeMap := [some neuronType.EXC] }

/-- One inhibitory and two excitatory neurons, two starters asked for. -/
def threeNeurons : Network :=
  { rowNetwork 3 1 2 with
    m_rgNeuronTypeMap := [some neuronType.INH, some neuronType.EXC, some neuronType.EXC] }

/-- The stream whose every draw is `0`. -/
def zeroDraws : Nat → ℚ := fun _ => 0

/-- The stream `1/2, 3/4, 1/2, 3/4, ...`. -/
def midDraws : Nat → ℚ := fun n => if n % 2 = 0 then 1 / 2 else 3 / 4

/-- One inhibitory and two excitatory neurons, three starters asked for. -/
def threeNeuronsThreeStarters : Network :=
  { threeNeurons with m_cStarterNeurons := 3 }

/-- Ten neurons in a row in fixed-layout mode, neurons 2, 5 and 7 inhibitory, after
`reset`. -/
def fixedNetwork : Network :=
  { rowNetwork 10 3 0 with m_fFixedLayout := true, m_pInhibitoryNeuronLayout := [2, 5, 7] }

/-! ## Network.cpp: the state document and the memory image -/

/-- How `getStarterNeuronMatrix` can fail: a read past the end of the starter map, a
write past the end of the table, or its assertion `cur == m_cStarterNeurons`. -/
inductive TableFault where
  | readPastEnd
  | writePastEnd
  | assertionFailed
deriving DecidableEq, Repr

/-- The body of the inner loop of `getStarterNeuronMatrix` for the grid position
`(x, y)`; the state is the table and `cur`. -/
def getStarterNeuronMatrixCell (net : Network) (x : Nat) (state : List FLOAT × Nat) (y : Nat) :
    Except TableFault (List FLOAT × Nat) :=
  match net.m_rgEndogenouslyActiveNeuronMap[x + y * net.m_width]? with
  | none => Except.error TableFault.readPastEnd
  | some false => Except.ok state
  | some true =>
    match setAt state.1 state.2 ((x + y * net.m_height : Nat) : Int) with
    | none => Except.error TableFault.writePastEnd
    | some matrix => Except.ok (matrix, state.2 + 1)

/-- The function `Network::getStarterNeuronMatrix`: the loop over `x = 0 .. m_width - 1`
and, inside it, over `y = 0 .. m_height - 1`, then the assertion. -/
def getStarterNeuronMatrix (net : Network) (matrix : List FLOAT) :
    Except TableFault (List FLOAT) :=
  match (List.range net.m_width).foldlM
      (fun state x => (List.range net.m_height).foldlM
        (getStarterNeuronMatrixCell net x) state) (matrix, 0) with
  | Except.error e => Except.error e
  | Except.ok (m, cur) =>
    if cur = net.m_cStarterNeurons then Except.ok m else Except.error TableFault.assertionFailed

/-- The grid indices `i = x + y * m_width` of the neurons whose starter flag is set, in
ascending order. -/
def starterIndices (net : Network) : List Nat :=
  (List.range net.m_cNeurons).filter
    (fun i => net.m_rgEndogenouslyActiveNeuronMap[i]? = some true)

/-- What `saveSimState` sends to the stream, piece by piece: the two lines of the XML
header, the opening tag of the root element, a matrix written by its `toXML(name)`
(a vector is a matrix of one row), a one-by-one matrix written out by hand with its
name and value, and the closing tag of the root element. -/
inductive StateItem where
  | xmlHeader
  | openSimState
  | matrix (name : String) (rows : List (List FLOAT))
  | scalarMatrix (name : String) (value : FLOAT)
  | closeSimState
deriving DecidableEq, Repr

/-- The function `Network::saveSimState`: the pieces written to `os`, in order, and how
the call ends.  When `getStarterNeuronMatrix` fails, the run ends there: the header,
the opening tag and the seven tables before the starter table have been written,
nothing after them is, and the second component is the fault.  Otherwise the whole
document is written and the second component is `none`. -/
def saveSimState (ext : Externals) (net : Network) (radiiHistory ratesHistory : List (List FLOAT))
    (xloc yloc neuronTypes burstinessHist spikesHistory : List FLOAT) (Tsim : FLOAT)
    (neuronThresh : List FLOAT) : List StateItem × Option TableFault :=
  let first : List StateItem :=
    [StateItem.xmlHeader, StateItem.openSimState,
     StateItem.matrix "radiiHistory" radiiHistory,
     StateItem.matrix "ratesHistory" ratesHistory,
     StateItem.matrix "burstinessHist" [burstinessHist],
     StateItem.matrix "spikesHistory" [spikesHistory],
     StateItem.matrix "xloc" [xloc],
     StateItem.matrix "yloc" [yloc],
     StateItem.matrix "neuronTypes" [neuronTypes]]
  let last : List StateItem :=
    [StateItem.matrix "neuronThresh" [neuronThresh],
     StateItem.scalarMatrix "Tsim" Tsim,
     StateItem.scalarMatrix "simulationEndTime" ((net.g_simulationStep : Int) * net.m_deltaT),
     StateItem.closeSimState]
  if 0 < net.m_cStarterNeurons then
    match getStarterNeuronMatrix net (List.replicate net.m_cStarterNeurons ext.matrixInit) with
    | Except.error fault => (first, some fault)
    | Except.ok starterNeuronsM =>
      (first ++ [StateItem.matrix "starterNeurons" [starterNeuronsM]] ++ last, none)
  else
    (first ++ last, none)

/-- What `writeSimMemory` sends to the stream, piece by piece: a 4-byte `int`, the record
a neuron writes of itself, the record a synapse writes of itself, a `FLOAT`. -/
inductive MemoryItem where
  | int (value : Int)
  | neuronRecord (neuron : Neuron)
  | synapseRecord (synapse : DynamicSpikingSynapse)
  | float (value : FLOAT)
deriving DecidableEq, Repr

/-- The value of a whole number once it is stored in a 32-bit `int`. -/
def toInt32 (v : Int) : Int :=
  (v + 2147483648) % 4294967296 - 2147483648

/-- The loop `for (i = 0; i < n; i++)` that reads `f(i)` in each iteration: the values
read, in order, or `none` when a read fails. -/
def readEach {α : Type} : Nat → (Nat → Option α) → Option (List α)
  | 0, _ => some []
  | n + 1, f =>
    match readEach n f with
    | none => none
    | some l =>
      match f n with
      | none => none
      | some v => some (l ++ [v])

/-- The read `m(r, c)` of a matrix held as a list of rows. -/
def getEntry (m : List (List FLOAT)) (r c : Nat) : Option FLOAT :=
  match m[r]? with
  | none => none
  | some row => row[c]?

/-- The function `Network::writeSimMemory`: the pieces written to `os`, in order.
`synapse_count` is an `int` to which the sizes of the lists are added one by one. -/
def writeSimMemory (net : Network) (radiiHistory ratesHistory : List (List FLOAT)) :
    Option (List MemoryItem) :=
  match readEach net.m_cNeurons (fun i => net.m_neuronList[i]?) with
  | none => none
  | some neurons =>
  match readEach net.m_cNeurons (fun i => net.m_rgSynapseMap[i]?) with
  | none => none
  | some lists =>
  match readEach net.m_cNeurons (fun i => getEntry radiiHistory net.m_si.currentStep i) with
  | none => none
  | some radii =>
  match readEach net.m_cNeurons (fun i => getEntry ratesHistory net.m_si.currentStep i) with
  | none => none
  | some rates =>
    some ([MemoryItem.int net.m_cNeurons] ++ neurons.map MemoryItem.neuronRecord ++
      [MemoryItem.int (lists.foldl (fun synapse_count l => toInt32 (synapse_count + l.length)) 0)] ++
      lists.flatten.map MemoryItem.synapseRecord ++
      radii.map MemoryItem.float ++ rates.map MemoryItem.float)

/-! ## Network.cpp: simulate -/

/-- Values for what the headers supply: whole-number division, exact products (what the
floating-point product is for the small values it is used with here), matrices filled
with zero, no memory image to read. -/
def ext0 : Externals :=
  { fdiv := fun a b => a / b
    fmul := fun n f => n * f
    newNeuron := default
    matrixInit := 0
    neuronTypeValue := fun t => match t with
      | neuronType.INH => 1
      | neuronType.EXC => 2
    DEFAULT_InhibTrefract := 1
    DEFAULT_ExcitTrefract := 2
    readSimMemory := fun _ _ _ => none }

/-- A 2 x 2 grid of excitatory neurons, no starters, start radius 4, as the
constructor leaves it. -/
def gridNetwork : Network :=
  { m_width := 2, m_height := 2, m_cNeurons := 4, m_cExcitoryNeurons := 4,
    m_cInhibitoryNeurons := 0, m_cStarterNeurons := 0, m_deltaT := 1,
    m_rgSynapseMap := List.replicate 4 [], m_summationMap := List.replicate 4 0,
    m_rgNeuronTypeMap := List.replicate 4 (some neuronType.EXC),
    m_rgEndogenouslyActiveNeuronMap := List.replicate 4 false,
    m_epsilon := 1, m_beta := 1, m_rho := 1, m_targetRate := 1, m_maxRate := 1,
    m_minRadius := 1, m_startRadius := 4, m_fWriteMemImage := false,
    m_fReadMemImage := false, m_fFixedLayout := false,
    m_pEndogenouslyActiveNeuronLayout := [], m_pInhibitoryNeuronLayout := [],
    m_neuronList := List.replicate 4 default, m_si := { si0 with cNeurons := 4, deltaT := 1 },
    g_simulationStep := 0, rngCount := 0 }

/-- The grid in the middle of a run: `epoch` epochs done, the step counter advanced,
a synapse in the list of neuron 0, accumulators and starter flags set, draws consumed
by the constructor. -/
def midRunNetwork (epoch : Nat) : Network :=
  { gridNetwork with
    m_si := { gridNetwork.m_si with currentStep := epoch, maxSteps := 5, stepDuration := 100 }
    g_simulationStep := 1000 * epoch
    m_rgSynapseMap := [[c1_s], [], [], []]
    m_summationMap := [3, 0, 1, 0]
    m_rgEndogenouslyActiveNeuronMap := [true, false, false, false] }

/-- A grid one neuron wide and two high whose second neuron is the one starter. -/
def tallNetwork : Network :=
  { rowNetwork 2 0 1 with
    m_width := 1, m_height := 2
    m_rgNeuronTypeMap := [some neuronType.EXC, some neuronType.EXC]
    m_rgEndogenouslyActiveNeuronMap := [false, true] }

/-- The radius history of a run of two epochs on the 2 x 2 grid. -/
def sampleRadii : List (List FLOAT) := [[4, 4, 4, 4], [5, 6, 7, 8], [6, 7, 8, 9]]

/-- The rate history of a run of two epochs on the 2 x 2 grid. -/
def sampleRates : List (List FLOAT) := [[0, 0, 0, 0], [1, 2, 3, 4], [2, 3, 4, 5]]

/-- The 2 x 2 grid with the neurons 1 and 2 as its two starters. -/
def squareNetwork : Network :=
  { gridNetwork with m_cStarterNeurons := 2,
                     m_rgEndogenouslyActiveNeuronMap := [false, true, true, false] }

/-! ## Network.cpp: initNeurons and the constructor -/

/-- The eight `[min, max]` ranges `initNeurons` takes, each an array of two `FLOAT`. -/
structure NeuronRanges where
  Iinject : FLOAT × FLOAT
  Inoise : FLOAT × FLOAT
  Vthresh : FLOAT × FLOAT
  Vresting : FLOAT × FLOAT
  Vreset : FLOAT × FLOAT
  Vinit : FLOAT × FLOAT
  starter_Vthresh : FLOAT × FLOAT
  starter_Vreset : FLOAT × FLOAT

/-- Modelled from the spec: the member function `setParams` of the neuron class, which
is not part of these sources.  The spec has `initializeBiophysics` give a neuron its
injected current, noise, threshold, resting, reset and initial voltage; `setParams`
stores its seven arguments in the members of those names and changes nothing else. -/
def Neuron.setParams (n : Neuron) (Iinject Inoise Vthresh Vresting Vreset Vinit deltaT : FLOAT) :
    Neuron :=
  { n with Iinject := Iinject, Inoise := Inoise, Vthresh := Vthresh, Vresting := Vresting,
           Vreset := Vreset, Vinit := Vinit, deltaT := deltaT }

/-- The value of `rng.inRange(range[0], range[1])` when the draw it consumes is the one
at position `count`.  `toFLOAT` gives the `FLOAT` that holds the sampled value. -/
def sample (toFLOAT : ℚ → FLOAT) (draws : Nat → ℚ) (count : Nat) (range : FLOAT × FLOAT) :
    FLOAT :=
  toFLOAT (inRange draws count range.1 range.2)

/-- The body of the loop of `initNeurons` for neuron `i`: six draws for the arguments of
`setParams`, the refractory period by the type of the neuron (`none` is the failing
assertion of the `default:` branch), and for a starter two more draws and the
excitatory refractory period. -/
def initNeuronsBody (ext : Externals) (toFLOAT : ℚ → FLOAT) (draws : Nat → ℚ)
    (rg : NeuronRanges) (net : Network) (i : Nat) : Option Network :=
  let count := net.rngCount
  let Ii := sample toFLOAT draws count rg.Iinject
  let In := sample toFLOAT draws (count + 1) rg.Inoise
  let Vth := sample toFLOAT draws (count + 2) rg.Vthresh
  let Vrest := sample toFLOAT draws (count + 3) rg.Vresting
  let Vres := sample toFLOAT draws (count + 4) rg.Vreset
  let Vin := sample toFLOAT draws (count + 5) rg.Vinit
  match net.m_neuronList[i]? with
  | none => none
  | some neuron0 =>
    let neuron1 := neuron0.setParams Ii In Vth Vrest Vres Vin net.m_deltaT
    let Trefract : Option FLOAT :=
      match net.m_rgNeuronTypeMap[i]? with
      | some (some neuronType.INH) => some ext.DEFAULT_InhibTrefract
      | some (some neuronType.EXC) => some ext.DEFAULT_ExcitTrefract
      | _ => none
    match Trefract with
    | none => none
    | some t =>
      let neuron2 : Neuron := { neuron1 with Trefract := t }
      match net.m_rgEndogenouslyActiveNeuronMap[i]? with
      | none => none
      | some false =>
        some { net with rngCount := count + 6, m_neuronList := net.m_neuronList.set i neuron2 }
      | some true =>
        some { net with
          rngCount := count + 8
          m_neuronList := net.m_neuronList.set i
            { neuron2 with
              Vthresh := sample toFLOAT draws (count + 6) rg.starter_Vthresh
              Vreset := sample toFLOAT draws (count + 7) rg.starter_Vreset
              Trefract := ext.DEFAULT_ExcitTrefract } }

/-- The loop `for (i = 0; i < m_cNeurons; i++)` of `initNeurons`. -/
def initNeuronsLoop (ext : Externals) (toFLOAT : ℚ → FLOAT) (draws : Nat → ℚ)
    (rg : NeuronRanges) (net : Network) : Option Network :=
  (List.range net.m_cNeurons).foldlM (initNeuronsBody ext toFLOAT draws rg) net

/-- The function `Network::initNeurons`: the type map, the starter map (its random loop
run for at most `fuel` iterations), then the loop over the neurons.  A failing
assertion is the outcome `undefined`. -/
def initNeurons (ext : Externals) (toFLOAT : ℚ → FLOAT) (draws : Nat → ℚ) (fuel : Nat)
    (rg : NeuronRanges) (net : Network) : Outcome Network :=
  match initNeuronTypeMap draws net with
  | none => Outcome.undefined
  | some net1 =>
    match initStarterMap draws fuel net1 with
    | Outcome.outOfFuel => Outcome.outOfFuel
    | Outcome.undefined => Outcome.undefined
    | Outcome.done net2 =>
      match initNeuronsLoop ext toFLOAT draws rg net2 with
      | none => Outcome.undefined
      | some net3 => Outcome.done net3

/-- The arguments of the constructor `Network::Network`, apart from the streams.  The
fractions are `FLOAT` values, carried as the rationals they are.  `cols` and `rows` are
`int` in the source; a negative grid size is outside this model. -/
structure NetworkArgs where
  cols : Nat
  rows : Nat
  inhFrac : ℚ
  excFrac : ℚ
  startFrac : ℚ
  ranges : NeuronRanges
  new_epsilon : FLOAT
  new_beta : FLOAT
  new_rho : FLOAT
  new_targetRate : FLOAT
  new_maxRate : FLOAT
  new_minRadius : FLOAT
  new_startRadius : FLOAT
  new_deltaT : FLOAT
  fWriteMemImage : Bool
  fReadMemImage : Bool
  fFixedLayout : Bool
  pEndogenouslyActiveNeuronLayout : List Int
  pInhibitoryNeuronLayout : List Int

/-- The conversion `static_cast<int>(v)` to a 32-bit `int`: the truncated value, or
`none` when it does not fit, for which the conversion is undefined. -/
def static_cast_int32 (v : ℚ) : Option Int :=
  if -2147483648 ≤ static_cast_int v ∧ static_cast_int v ≤ 2147483647 then
    some (static_cast_int v)
  else none

/-- The state the member initialisers of the constructor build: sizes and counts, the
constants, the flags and the layouts; the four arrays are null.  `cols`, `rows` and
their product are 32-bit `int` values: the result is `none` when one of them does not
fit (for the product a signed overflow).  Each count is the product of the number of
neurons and a fraction, computed in `FLOAT` (`ext.fmul`) and converted to `int`; the
result is `none` when that conversion is undefined.  A count that comes out negative
is carried as 0: these sources use the counts as the bounds of loops that count up
from 0 and in the test `m_cStarterNeurons > 0`, which a negative count and 0 decide
alike, and the starter count as a size and in the assertion of
`getStarterNeuronMatrix` only where that test has held.  `si` is what `m_si`, which no
initialiser sets, holds, and `step` and `count` are the two globals. -/
def Network.initialisers (ext : Externals) (args : NetworkArgs) (si : SimulationInfo)
    (step count : Nat) : Option Network :=
  if args.cols ≤ 2147483647 ∧ args.rows ≤ 2147483647 ∧ args.cols * args.rows ≤ 2147483647 then
    match static_cast_int32 (ext.fmul ((args.rows * args.cols : Nat) : Int) args.excFrac) with
    | none => none
    | some cExcitoryNeurons =>
    match static_cast_int32 (ext.fmul ((args.rows * args.cols : Nat) : Int) args.inhFrac) with
    | none => none
    | some cInhibitoryNeurons =>
    match static_cast_int32 (ext.fmul ((args.cols * args.rows : Nat) : Int) args.startFrac) with
    | none => none
    | some cStarterNeurons =>
      some
        { m_width := args.cols
          m_height := args.rows
          m_cNeurons := args.cols * args.rows
          m_cExcitoryNeurons := cExcitoryNeurons.toNat
          m_cInhibitoryNeurons := cInhibitoryNeurons.toNat
          m_cStarterNeurons := cStarterNeurons.toNat
          m_deltaT := args.new_deltaT
          m_rgSynapseMap := []
          m_summationMap := []
          m_rgNeuronTypeMap := []
          m_rgEndogenouslyActiveNeuronMap := []
          m_epsilon := args.new_epsilon
          m_beta := args.new_beta
          m_rho := args.new_rho
          m_targetRate := args.new_targetRate
          m_maxRate := args.new_maxRate
          m_minRadius := args.new_minRadius
          m_startRadius := args.new_startRadius
          m_fWriteMemImage := args.fWriteMemImage
          m_fReadMemImage := args.fReadMemImage
          m_fFixedLayout := args.fFixedLayout
          m_pEndogenouslyActiveNeuronLayout := args.pEndogenouslyActiveNeuronLayout
          m_pInhibitoryNeuronLayout := args.pInhibitoryNeuronLayout
          m_neuronList := []
          m_si := si
          g_simulationStep := step
          rngCount := count }
  else none

/-- The constructor `Network::Network`: the member initialisers, then `reset()` and
`initNeurons(...)`.  The outcome is `undefined` when an initialiser is. -/
def Network.construct (ext : Externals) (toFLOAT : ℚ → FLOAT) (draws : Nat → ℚ) (fuel : Nat)
    (args : NetworkArgs) (si : SimulationInfo) (step count : Nat) : Outcome Network :=
  match Network.initialisers ext args si step count with
  | none => Outcome.undefined
  | some net => initNeurons ext toFLOAT draws fuel args.ranges (reset ext net)

/-- The number of draws the loop of `initNeurons` has consumed when it comes to neuron
`i`: six for every neuron before it and two more for every starter among them. -/
def drawsBefore (net : Network) (i : Nat) : Nat :=
  6 * i + 2 * (net.m_rgEndogenouslyActiveNeuronMap.take i).count true

/-- Neuron `i` as the loop of `initNeurons` leaves it, `p` being the position in the
stream of the first draw made for it: the six draws `p .. p + 5` go, in this order, to
injected current, noise, threshold, resting voltage, reset voltage and initial
voltage; for a starter the draws `p + 6` and `p + 7` replace threshold and reset
voltage; the refractory period is the inhibitory constant for an `INH` neuron that is
no starter and the excitatory constant otherwise. -/
def initializedNeuron (ext : Externals) (toFLOAT : ℚ → FLOAT) (draws : Nat → ℚ)
    (rg : NeuronRanges) (net : Network) (i : Nat) : Neuron :=
  let p := net.rngCount + drawsBefore net i
  let starter : Bool := net.m_rgEndogenouslyActiveNeuronMap[i]? = some true
  { Iinject := sample toFLOAT draws p rg.Iinject
    Inoise := sample toFLOAT draws (p + 1) rg.Inoise
    Vthresh := if starter then sample toFLOAT draws (p + 6) rg.starter_Vthresh
               else sample toFLOAT draws (p + 2) rg.Vthresh
    Vresting := sample toFLOAT draws (p + 3) rg.Vresting
    Vreset := if starter then sample toFLOAT draws (p + 7) rg.starter_Vreset
              else sample toFLOAT draws (p + 4) rg.Vreset
    Vinit := sample toFLOAT draws (p + 5) rg.Vinit
    deltaT := net.m_deltaT
    Trefract := if starter then ext.DEFAULT_ExcitTrefract
                else if net.m_rgNeuronTypeMap[i]? = some (some neuronType.INH)
                then ext.DEFAULT_InhibTrefract else ext.DEFAULT_ExcitTrefract }

/-- The conversion of a sampled value to `FLOAT` that rounds down to a whole number. -/
def floorFLOAT : ℚ → FLOAT := fun q => Int.floor q

/-- Ranges for the eight parameters. -/
def sampleRanges : NeuronRanges :=
  { Iinject := (13, 14), Inoise := (1, 2), Vthresh := (15, 16), Vresting := (0, 1),
    Vreset := (13, 14), Vinit := (13, 14), starter_Vthresh := (13, 14),
    starter_Vreset := (13, 14) }

/-- Constructor arguments for a grid of two columns and one row in fixed-layout mode:
the starter fraction `1/2` gives a starter count of 1, the layouts are given by the
caller. -/
def fixedArgs (starters inhibitory : List Int) : NetworkArgs :=
  { cols := 2, rows := 1, inhFrac := 0, excFrac := 1, startFrac := 1 / 2,
    ranges := sampleRanges, new_epsilon := 1, new_beta := 1, new_rho := 1,
    new_targetRate := 1, new_maxRate := 1, new_minRadius := 1, new_startRadius := 4,
    new_deltaT := 1, fWriteMemImage := false, fReadMemImage := false, fFixedLayout := true,
    pEndogenouslyActiveNeuronLayout := starters, pInhibitoryNeuronLayout := inhibitory }

/-- The members `getStarterNeuronMatrix` reads of the network built from `fixedArgs`
with the starter layout `[0, 1]`: two neurons flagged, a starter count of 1. -/
def overfullNetwork : Network :=
  { rowNetwork 2 0 1 with m_rgEndogenouslyActiveNeuronMap := [true, true] }

/-- The members `getStarterNeuronMatrix` reads of the network built from `fixedArgs`
with an empty starter layout: no neuron flagged, a starter count of 1. -/
def unflaggedNetwork : Network :=
  { rowNetwork 2 0 1 with m_rgEndogenouslyActiveNeuronMap := [false, false] }

/-- The starter flag of neuron `i` as a number: 1 when it is set, 0 when it is not or
when there is no neuron `i`. -/
def flagAt (net : Network) (i : Nat) : Nat :=
  if net.m_rgEndogenouslyActiveNeuronMap[i]? = some true then 1 else 0

/-- The number of starters in column `x` among the rows `0 .. k - 1` of the grid. -/
def flaggedInColumn (net : Network) (x k : Nat) : Nat :=
  Finset.sum (Finset.range k) (fun y => flagAt net (x + y * net.m_width))

/-- The number of starters in the columns `0 .. j - 1` of the grid. -/
def flaggedInColumns (net : Network) (j : Nat) : Nat :=
  Finset.sum (Finset.range j) (fun x => flaggedInColumn net x net.m_height)

/-- State `b` has the grid of state `a`: the same width, height and starter count, and a
starter map of the same length. -/
def sameGrid (a b : Network) : Prop :=
  b.m_width = a.m_width ∧ b.m_height = a.m_height ∧
  b.m_cStarterNeurons = a.m_cStarterNeurons ∧
  b.m_rgEndogenouslyActiveNeuronMap.length = a.m_rgEndogenouslyActiveNeuronMap.length

/-! ## Theorems: the synapse store -/

/-- The round trip through a slot in general: the synapse read back is the one written,
except that `summationPoint`, `ldelayQueue` and the delay queue past word 0 are those
the destination held before the read. -/
theorem copyStructToSynapse_copySynapseToStruct (s out : DynamicSpikingSynapse)
    (st : DynamicSpikingSynapse_struct) (idx : Nat) (d0 e0 : Nat) (ds es : List Nat)
    (hv : validSlot st idx) (hs : s.delayQueue = d0 :: ds) (ho : out.delayQueue = e0 :: es) :
    (copySynapseToStruct s st idx).bind (fun st1 => copyStructToSynapse st1 out idx) =
      some { s with summationPoint := out.summationPoint, ldelayQueue := out.ldelayQueue,
                    delayQueue := d0 :: es } := by
  have hv2 := hv
  obtain ⟨h1, h2, h3, h4, h5, h6, h7, h8, h9, h10, h11, h12, h13, h14, h15, h16⟩ := hv2
  simp [copySynapseToStruct, copyStructToSynapse, hs, ho, hv, readableSlot, *]

/-- C1, at the input where the code departs from it: the synapse `c1_s` is written to
slot 0 of a one-slot store by `copySynapseToStruct` and the slot is read back into
`c1_out` by `copyStructToSynapse`.  The result is `c1_s` in every field except
`summationPoint` and `ldelayQueue`: `ldelayQueue` keeps the value `c1_out` held before
the read (0) and not the value that was written (32), since `copyStructToSynapse` has
no assignment to it. -/
theorem C1_round_trip_loses_ldelayQueue :
    (copySynapseToStruct c1_s c1_store 0).bind (fun st1 => copyStructToSynapse st1 c1_out 0) =
      some { c1_s with summationPoint := c1_out.summationPoint,
                       ldelayQueue := c1_out.ldelayQueue } ∧
    c1_s.ldelayQueue = 32 ∧ c1_out.ldelayQueue = 0 ∧
    c1_out.ldelayQueue ≠ c1_s.ldelayQueue := by
  decide

theorem setAt_eq_some {α : Type} (a : List α) (i : Nat) (v : α) (h : i < a.length) :
    setAt a i v = some (a.set i v) := by
  simp [setAt, h]

/-- C7: after `copySynapseToStruct(s, store, idx)` on a valid slot, whatever the slot
held before, the slot is in use, its `summationPoint` is 0 and every other array holds
at `idx` the field of `s` of the same name (`delayQueue[idx]` holds `s.delayQueue[0]`);
and writing any `s1` and then `s` to the slot leaves the store as writing `s` alone
does. -/
theorem C7_copySynapseToStruct_replaces_slot (s : DynamicSpikingSynapse)
    (st : DynamicSpikingSynapse_struct) (idx : Nat)
    (hv : validSlot st idx) (hs : s.delayQueue ≠ []) :
    ∃ st1, copySynapseToStruct s st idx = some st1 ∧
      st1.inUse[idx]? = some true ∧ st1.summationPoint[idx]? = some 0 ∧
      st1.W[idx]? = some s.W ∧ st1.decay[idx]? = some s.decay ∧
      st1.deltaT[idx]? = some s.deltaT ∧ st1.lastSpike[idx]? = some s.lastSpike ∧
      st1.psr[idx]? = some s.psr ∧ st1.r[idx]? = some s.r ∧
      st1.summationCoord[idx]? = some s.summationCoord ∧
      st1.synapseCoord[idx]? = some s.synapseCoord ∧
      st1.tau[idx]? = some s.tau ∧ st1.total_delay[idx]? = some s.total_delay ∧
      st1.u[idx]? = some s.u ∧ st1.ldelayQueue[idx]? = some s.ldelayQueue ∧
      st1.type[idx]? = some s.type ∧ st1.delayQueue[idx]? = s.delayQueue[0]? ∧
      (∀ s1 : DynamicSpikingSynapse, s1.delayQueue ≠ [] →
        (copySynapseToStruct s1 st idx).bind (fun st2 => copySynapseToStruct s st2 idx) =
          some st1) := by
  obtain ⟨d0, ds, hd⟩ := List.exists_cons_of_ne_nil hs
  have hv2 := hv
  obtain ⟨h1, h2, h3, h4, h5, h6, h7, h8, h9, h10, h11, h12, h13, h14, h15, h16⟩ := hv2
  have hw : copySynapseToStruct s st idx = some
      { inUse := st.inUse.set idx true, summationPoint := st.summationPoint.set idx 0,
        summationCoord := st.summationCoord.set idx s.summationCoord,
        synapseCoord := st.synapseCoord.set idx s.synapseCoord,
        deltaT := st.deltaT.set idx s.deltaT, W := st.W.set idx s.W,
        psr := st.psr.set idx s.psr, decay := st.decay.set idx s.decay,
        total_delay := st.total_delay.set idx s.total_delay, type := st.type.set idx s.type,
        delayQueue := st.delayQueue.set idx d0,
        ldelayQueue := st.ldelayQueue.set idx s.ldelayQueue,
        tau := st.tau.set idx s.tau, r := st.r.set idx s.r, u := st.u.set idx s.u,
        lastSpike := st.lastSpike.set idx s.lastSpike } := by
    simp only [copySynapseToStruct, hd, hv, if_true]
  refine ⟨_, hw, ?_⟩
  simp only [List.getElem?_set_self, hd, List.getElem?_cons_zero, *]
  simp only [true_and]
  intro s1 hs1
  obtain ⟨c0, cs, hc⟩ := List.exists_cons_of_ne_nil hs1
  simp [copySynapseToStruct, hd, hc, hv, validSlot, *]

theorem copyStructToSynapse_twice (st : DynamicSpikingSynapse_struct)
    (x y : DynamicSpikingSynapse) (i j : Nat) (h : copyStructToSynapse st x i = some y) :
    copyStructToSynapse st y j = copyStructToSynapse st x j := by
  unfold copyStructToSynapse at h ⊢
  cases hx : x.delayQueue with
  | nil => simp [hx] at h
  | cons e es =>
    simp only [hx] at h ⊢
    by_cases hr : readableSlot st i
    · simp only [hr, if_true, Option.some.injEq] at h
      subst h
      rfl
    · simp [hr] at h

theorem copyStructToSynapse_isSome (st : DynamicSpikingSynapse_struct)
    (x : DynamicSpikingSynapse) (i : Nat) (hx : x.delayQueue ≠ []) (hr : readableSlot st i) :
    ∃ y, copyStructToSynapse st x i = some y ∧ y.delayQueue ≠ [] := by
  obtain ⟨e, es, he⟩ := List.exists_cons_of_ne_nil hx
  simp only [copyStructToSynapse, he, hr, if_true]
  exact ⟨_, rfl, by simp⟩

theorem set_of_getElem? {α : Type} (mp : List α) (n : Nat) (l0 : α) (h : mp[n]? = some l0) :
    mp.set n l0 = mp := by
  apply List.ext_getElem?
  intro i
  by_cases hi : n = i
  · subst hi
    have hn : n < mp.length := by
      by_contra hc
      rw [List.getElem?_eq_none (by omega)] at h; cases h
    simp [List.getElem?_set, hn, h]
  · simp [List.getElem?_set, hi]

/-- The inner loop of `synapseArrayToMap` after `m` iterations. -/
theorem synapseArrayToMapSlot_fold (syn0 : DynamicSpikingSynapse)
    (st : DynamicSpikingSynapse_struct) (maxSynapses n : Nat)
    (hst : ∀ j, j < maxSynapses → ∃ b, st.inUse[n * maxSynapses + j]? = some b ∧
      (b = true → readableSlot st (n * maxSynapses + j))) :
    ∀ m, m ≤ maxSynapses → ∀ (syn : DynamicSpikingSynapse)
      (mp : List (List DynamicSpikingSynapse)) (l0 : List DynamicSpikingSynapse),
      syn.delayQueue ≠ [] →
      (∀ j, copyStructToSynapse st syn j = copyStructToSynapse st syn0 j) →
      mp[n]? = some l0 →
      ∃ syn1 l1, (List.range m).foldlM (synapseArrayToMapSlot st maxSynapses n) (syn, mp) =
          some (syn1, mp.set n l1) ∧
        syn1.delayQueue ≠ [] ∧
        (∀ j, copyStructToSynapse st syn1 j = copyStructToSynapse st syn0 j) ∧
        l1.map some = l0.map some ++
          ((((List.range m).map (fun j => n * maxSynapses + j)).filter
            (fun idx => st.inUse[idx]? = some true)).map (copyStructToSynapse st syn0)) := by
  intro m
  induction m with
  | zero =>
    intro _ syn mp l0 hq hag hl
    refine ⟨syn, l0, ?_, hq, hag, by simp⟩
    simp [set_of_getElem? mp n l0 hl]
  | succ m ih =>
    intro hm syn mp l0 hq hag hl
    obtain ⟨syn1, l1, hf, hq1, hag1, hl1⟩ := ih (by omega) syn mp l0 hq hag hl
    have hn : n < mp.length := by
      by_contra h
      rw [List.getElem?_eq_none (by omega)] at hl; cases hl
    rw [List.range_succ, List.foldlM_append, hf]
    obtain ⟨b, hb, hbr⟩ := hst m (by omega)
    cases b with
    | false =>
      refine ⟨syn1, l1, ?_, hq1, hag1, ?_⟩
      · simp [synapseArrayToMapSlot, hb]
      · simp [List.map_append, List.filter_append, hb, hl1]
    | true =>
      obtain ⟨y, hy, hyq⟩ := copyStructToSynapse_isSome st syn1 _ hq1 (hbr rfl)
      refine ⟨y, l1 ++ [y], ?_, hyq, ?_, ?_⟩
      · simp [synapseArrayToMapSlot, hb, hy, hn]
      · intro j
        rw [copyStructToSynapse_twice st syn1 y _ j hy, hag1]
      · simp [List.map_append, List.filter_append, hb, hl1, ← hag1, hy]

theorem mem_inUseSlots (st : DynamicSpikingSynapse_struct) (maxSynapses n idx : Nat) :
    idx ∈ inUseSlots st maxSynapses n ↔
      n * maxSynapses ≤ idx ∧ idx < (n + 1) * maxSynapses ∧ st.inUse[idx]? = some true := by
  simp only [inUseSlots, List.mem_filter, List.mem_map, List.mem_range, decide_eq_true_eq]
  constructor
  · rintro ⟨⟨j, hj, rfl⟩, h⟩
    exact ⟨by omega, by rw [Nat.add_mul]; omega, h⟩
  · rintro ⟨h1, h2, h3⟩
    rw [Nat.add_mul] at h2
    exact ⟨⟨idx - n * maxSynapses, by omega, by omega⟩, h3⟩

theorem inUseSlots_ascending (st : DynamicSpikingSynapse_struct) (maxSynapses n : Nat) :
    (inUseSlots st maxSynapses n).Pairwise (fun a b => a < b) := by
  unfold inUseSlots
  apply List.Pairwise.filter
  rw [List.pairwise_map]
  have h := List.pairwise_lt_range maxSynapses
  exact h.imp (fun hab => by omega)

/-- The outer loop of `synapseArrayToMap` after `m` iterations. -/
theorem synapseArrayToMapNeuron_fold (syn0 : DynamicSpikingSynapse)
    (st : DynamicSpikingSynapse_struct) (synapseMap : List (List DynamicSpikingSynapse))
    (numNeurons maxSynapses : Nat) (hsyn : syn0.delayQueue ≠ [])
    (hmap : numNeurons ≤ synapseMap.length)
    (hst : ∀ idx, idx < numNeurons * maxSynapses →
      idx < st.inUse.length ∧ (st.inUse[idx]? = some true → readableSlot st idx)) :
    ∀ m, m ≤ numNeurons →
      ∃ syn1 mp, (List.range m).foldlM (synapseArrayToMapNeuron st maxSynapses)
          (syn0, synapseMap) = some (syn1, mp) ∧
        syn1.delayQueue ≠ [] ∧
        (∀ j, copyStructToSynapse st syn1 j = copyStructToSynapse st syn0 j) ∧
        mp.length = synapseMap.length ∧
        (∀ n, n < m → ∃ lst, mp[n]? = some lst ∧
          lst.map some = (inUseSlots st maxSynapses n).map (copyStructToSynapse st syn0)) ∧
        (∀ n, m ≤ n → mp[n]? = synapseMap[n]?) := by
  intro m
  induction m with
  | zero =>
    intro _
    exact ⟨syn0, synapseMap, by simp, hsyn, fun _ => rfl, rfl, by simp, fun _ _ => rfl⟩
  | succ m ih =>
    intro hm
    obtain ⟨syn1, mp, hf, hq, hag, hlen, hdone, hrest⟩ := ih (by omega)
    have hslots : ∀ j, j < maxSynapses → ∃ b, st.inUse[m * maxSynapses + j]? = some b ∧
        (b = true → readableSlot st (m * maxSynapses + j)) := by
      intro j hj
      have hlt : m * maxSynapses + j < numNeurons * maxSynapses := by
        calc m * maxSynapses + j < m * maxSynapses + maxSynapses := by omega
          _ = (m + 1) * maxSynapses := by rw [Nat.add_mul]; omega
          _ ≤ numNeurons * maxSynapses := Nat.mul_le_mul_right _ hm
      obtain ⟨h1, h2⟩ := hst _ hlt
      refine ⟨st.inUse[m * maxSynapses + j], List.getElem?_eq_getElem h1, ?_⟩
      intro hb
      exact h2 (by rw [List.getElem?_eq_getElem h1, hb])
    have hmlt : m < mp.length := by omega
    obtain ⟨syn2, l1, hf2, hq2, hag2, hl1⟩ :=
      synapseArrayToMapSlot_fold syn0 st maxSynapses m hslots maxSynapses (le_refl _) syn1
        (mp.set m []) [] hq hag (by simp [List.getElem?_set, hmlt])
    refine ⟨syn2, (mp.set m []).set m l1, ?_, hq2, hag2, by simp [hlen], ?_, ?_⟩
    · rw [List.range_succ, List.foldlM_append, hf]
      simp [synapseArrayToMapNeuron, setAt, hmlt, hf2]
    · intro n hn
      by_cases hnm : n = m
      · subst hnm
        refine ⟨l1, by simp [List.getElem?_set, hmlt], ?_⟩
        simpa [inUseSlots] using hl1
      · obtain ⟨lst, h1, h2⟩ := hdone n (by omega)
        refine ⟨lst, ?_, h2⟩
        simp [List.getElem?_set, Ne.symm hnm, h1]
    · intro n hn
      have hnm : m ≠ n := by omega
      simp [List.getElem?_set, hnm]
      exact hrest n (by omega)

/-- C2: when the store has the slots `0 .. numNeurons * maxSynapses - 1` and the array
has `numNeurons` lists, `synapseArrayToMap` returns, and whatever the lists held before,
the list of each neuron `n < numNeurons` is then the list of the values
`copyStructToSynapse` reads from the slots of `inUseSlots n`, in that order.
`inUseSlots n` is strictly ascending and holds exactly the indices of
`[n * maxSynapses, (n + 1) * maxSynapses)` whose `inUse` flag is set, so the k-th entry
comes from the k-th in-use slot and the length of the list is the number of in-use
slots.  The lists of the neurons from `numNeurons` on are left as they were. -/
theorem C2_synapseArrayToMap_lists (syn0 : DynamicSpikingSynapse)
    (st : DynamicSpikingSynapse_struct) (synapseMap : List (List DynamicSpikingSynapse))
    (numNeurons maxSynapses : Nat) (hsyn : syn0.delayQueue ≠ [])
    (hmap : numNeurons ≤ synapseMap.length)
    (hst : ∀ idx, idx < numNeurons * maxSynapses →
      idx < st.inUse.length ∧ (st.inUse[idx]? = some true → readableSlot st idx)) :
    ∃ result, synapseArrayToMap syn0 st synapseMap numNeurons maxSynapses = some result ∧
      result.length = synapseMap.length ∧
      (∀ n, n < numNeurons → ∃ lst, result[n]? = some lst ∧
        lst.map some = (inUseSlots st maxSynapses n).map (copyStructToSynapse st syn0) ∧
        lst.length = (inUseSlots st maxSynapses n).length ∧
        (inUseSlots st maxSynapses n).Pairwise (fun a b => a < b) ∧
        (∀ idx, idx ∈ inUseSlots st maxSynapses n ↔
          n * maxSynapses ≤ idx ∧ idx < (n + 1) * maxSynapses ∧ st.inUse[idx]? = some true)) ∧
      (∀ n, numNeurons ≤ n → result[n]? = synapseMap[n]?) := by
  obtain ⟨syn1, mp, hf, _, _, hlen, hdone, hrest⟩ :=
    synapseArrayToMapNeuron_fold syn0 st synapseMap numNeurons maxSynapses hsyn hmap hst
      numNeurons (le_refl _)
  refine ⟨mp, by simp [synapseArrayToMap, hf], hlen, ?_, hrest⟩
  intro n hn
  obtain ⟨lst, h1, h2⟩ := hdone n hn
  refine ⟨lst, h1, h2, ?_, inUseSlots_ascending st maxSynapses n,
    mem_inUseSlots st maxSynapses n⟩
  have := congrArg List.length h2
  simpa using this

/-! ## Theorems: neuron types -/

theorem static_cast_int_index (r : ℚ) (n : Nat) (h0 : 0 ≤ r) (h1 : r < 1) (hn : 0 < n) :
    0 ≤ static_cast_int (r * n) ∧ (static_cast_int (r * n)).toNat < n := by
  have hn' : (0 : ℚ) < n := by exact_mod_cast hn
  have hpos : 0 ≤ r * n := mul_nonneg h0 hn'.le
  have hlt : r * n < n := by nlinarith
  simp only [static_cast_int, hpos, if_true]
  have hf0 : 0 ≤ Int.floor (r * n) := Int.floor_nonneg.2 hpos
  have hf1 : Int.floor (r * n) < n := by
    rw [Int.floor_lt]; exact_mod_cast hlt
  exact ⟨hf0, by omega⟩

theorem set_append_drop {α : Type} (xs a : List α) (n : Nat) (v : α) (hx : xs.length = n)
    (hn : n < a.length) : (xs ++ a.drop n).set n v = xs ++ v :: a.drop (n + 1) := by
  rw [List.set_append_right _ _ (by omega), hx, Nat.sub_self, List.drop_eq_getElem_cons hn,
    List.set_cons_zero]

theorem perm_getElem_cons_eraseIdx {α : Type} (l : List α) (i : Nat) (h : i < l.length) :
    (l[i] :: l.eraseIdx i).Perm l := by
  rw [List.eraseIdx_eq_take_drop_succ]
  have hl : l = l.take i ++ l[i] :: l.drop (i + 1) := by
    rw [← List.drop_eq_getElem_cons h, List.take_append_drop]
  conv_rhs => rw [hl]
  exact List.perm_middle.symm

theorem assignEach_eq {α : Type} (f : Nat → Option α) (g : Nat → α) (a : List α) :
    ∀ n, n ≤ a.length → (∀ i, i < n → f i = some (g i)) →
      assignEach n f a = some ((List.range n).map g ++ a.drop n) := by
  intro n
  induction n with
  | zero => intro _ _; simp [assignEach]
  | succ n ih =>
    intro hn hf
    have h := ih (by omega) (fun i hi => hf i (by omega))
    unfold assignEach at h ⊢
    rw [List.range_succ, List.foldlM_append, h]
    simp only [List.foldlM_cons, List.foldlM_nil, hf n (by omega)]
    have hlen : n < ((List.range n).map g ++ a.drop n).length := by
      simp; omega
    simp only [Option.some_bind, setAt, Option.bind_eq_bind, hlen, if_true, pure]
    rw [set_append_drop _ _ _ _ (by simp) (by omega)]
    simp

theorem setINH_fold (N : Nat) : ∀ k, k ≤ N →
    (List.range k).foldlM (fun v i => setAt v i neuronType.INH)
        (List.replicate N neuronType.EXC) =
      some (List.replicate k neuronType.INH ++ List.replicate (N - k) neuronType.EXC) := by
  intro k hk
  have h := assignEach_eq (fun _ => some neuronType.INH) (fun _ => neuronType.INH)
    (List.replicate N neuronType.EXC) k (by simpa using hk) (fun _ _ => rfl)
  unfold assignEach at h
  simp only at h
  rw [h]
  congr 1
  simp [List.drop_replicate]

theorem shuffleLoop_spec (draws : Nat → ℚ) (hd : ∀ n, 0 ≤ draws n ∧ draws n < 1) :
    ∀ (m : Nat) (ordered out : List neuronType) (count : Nat), ordered.length = m →
      ∃ res, shuffleLoop draws ordered out count = some (res, count + m) ∧
        res.Perm (out ++ ordered) := by
  intro m
  induction m with
  | zero =>
    intro ordered out count hlen
    have : ordered = [] := List.length_eq_zero.1 hlen
    subst this
    refine ⟨out, ?_, by simp⟩
    rw [shuffleLoop]; simp
  | succ m ih =>
    intro ordered out count hlen
    have hne : ordered ≠ [] := by
      intro h; subst h; simp at hlen
    have hidx := static_cast_int_index (draws count) ordered.length (hd count).1 (hd count).2
      (by omega)
    have hlen2 : (ordered.eraseIdx (static_cast_int (draws count * ordered.length)).toNat).length
        = m := by
      rw [List.length_eraseIdx]; simp only [hidx.2, if_true]; omega
    obtain ⟨hi0, hi1⟩ := hidx
    obtain ⟨res, hres, hperm⟩ := ih _ (out ++
      [ordered[(static_cast_int (draws count * ordered.length)).toNat]]) (count + 1) hlen2
    refine ⟨res, ?_, ?_⟩
    · rw [shuffleLoop]
      simp only [hne, if_false, hi0, hi1, and_self, dite_true]
      rw [hres]; congr 2; omega
    · refine hperm.trans ?_
      rw [List.append_assoc]
      apply List.Perm.append_left
      simp only [List.singleton_append]
      exact perm_getElem_cons_eraseIdx ordered _ hi1

theorem getNeuronOrder_random (draws : Nat → ℚ) (net : Network)
    (hmode : net.m_fFixedLayout = false)
    (hk : net.m_cInhibitoryNeurons ≤ net.m_cNeurons)
    (hd : ∀ n, 0 ≤ draws n ∧ draws n < 1) :
    ∃ order, getNeuronOrder draws net =
        some (order, { net with rngCount := net.rngCount + net.m_cNeurons }) ∧
      order.Perm (List.replicate net.m_cInhibitoryNeurons neuronType.INH ++
        List.replicate (net.m_cNeurons - net.m_cInhibitoryNeurons) neuronType.EXC) := by
  obtain ⟨res, hres, hperm⟩ := shuffleLoop_spec draws hd net.m_cNeurons
    (List.replicate net.m_cInhibitoryNeurons neuronType.INH ++
      List.replicate (net.m_cNeurons - net.m_cInhibitoryNeurons) neuronType.EXC) []
    net.rngCount (by simp; omega)
  refine ⟨res, ?_, by simpa using hperm⟩
  simp only [getNeuronOrder, hmode, Bool.false_eq_true, if_false, setINH_fold _ _ hk, hres]

/-- C3: in random mode, for `m_cInhibitoryNeurons ≤ m_cNeurons` and every stream of
draws in `[0,1)`, `getNeuronOrder` returns after exactly `m_cNeurons` draws a vector of
length `m_cNeurons` with `m_cInhibitoryNeurons` elements `INH` and the rest `EXC`, a
permutation of the ordered list (the `INH` first, then the `EXC`); and
`initNeuronTypeMap` copies that vector into the type map. -/
theorem C3_random_type_assignment (draws : Nat → ℚ) (net : Network)
    (hmode : net.m_fFixedLayout = false)
    (hk : net.m_cInhibitoryNeurons ≤ net.m_cNeurons)
    (hmap : net.m_rgNeuronTypeMap.length = net.m_cNeurons)
    (hd : ∀ n, 0 ≤ draws n ∧ draws n < 1) :
    ∃ order, getNeuronOrder draws net =
        some (order, { net with rngCount := net.rngCount + net.m_cNeurons }) ∧
      order.length = net.m_cNeurons ∧
      order.count neuronType.INH = net.m_cInhibitoryNeurons ∧
      order.count neuronType.EXC = net.m_cNeurons - net.m_cInhibitoryNeurons ∧
      order.Perm (List.replicate net.m_cInhibitoryNeurons neuronType.INH ++
        List.replicate (net.m_cNeurons - net.m_cInhibitoryNeurons) neuronType.EXC) ∧
      initNeuronTypeMap draws net =
        some { net with rngCount := net.rngCount + net.m_cNeurons,
                        m_rgNeuronTypeMap := order.map some } := by
  obtain ⟨order, hget, hperm⟩ := getNeuronOrder_random draws net hmode hk hd
  have hlen : order.length = net.m_cNeurons := by
    rw [hperm.length_eq]; simp; omega
  refine ⟨order, hget, hlen, ?_, ?_, hperm, ?_⟩
  · rw [hperm.count_eq]; simp [List.count_replicate]
  · rw [hperm.count_eq]; simp [List.count_replicate]
  · simp only [initNeuronTypeMap, hget]
    rw [assignEach_eq _ (fun i => some (order.getD i neuronType.EXC)) _ _ (by omega)]
    · simp only [hmap.symm ▸ List.drop_length _, List.append_nil]
      congr 2
      apply List.ext_getElem
      · simp [hlen]
      · intro i h1 h2
        simp at h1
        simp [List.getD_eq_getElem?_getD, List.getElem?_eq_getElem (show i < order.length by omega)]
    · intro i hi
      simp [List.getD_eq_getElem?_getD, List.getElem?_eq_getElem (show i < order.length by omega)]

theorem setAtInt_fold {α : Type} (x : α) : ∀ (layout : List Int) (v : List α),
    (∀ e, e ∈ layout → 0 ≤ e ∧ e < v.length) →
    ∃ w, layout.foldlM (fun m idx => setAtInt m idx x) v = some w ∧ w.length = v.length ∧
      ∀ i : Nat, w[i]? = if (i : Int) ∈ layout ∧ i < v.length then some x else v[i]? := by
  intro layout
  induction layout with
  | nil => intro v _; exact ⟨v, rfl, rfl, by simp⟩
  | cons e rest ih =>
    intro v hl
    obtain ⟨he0, he1⟩ := hl e (List.mem_cons_self _ _)
    have het : e.toNat < v.length := by omega
    obtain ⟨w, hw, hwl, hwi⟩ := ih (v.set e.toNat x) (by
      intro e2 h2
      simpa using hl e2 (List.mem_cons_of_mem _ h2))
    refine ⟨w, ?_, by simpa using hwl, ?_⟩
    · simp only [List.foldlM_cons, setAtInt, he0, if_true, setAt, het, Option.bind_eq_bind,
        Option.some_bind]
      exact hw
    · intro i
      rw [hwi i]
      simp only [List.length_set, List.mem_cons, List.getElem?_set]
      by_cases hi : i < v.length
      · by_cases hie : (i : Int) = e
        · have : e.toNat = i := by omega
          simp [hie, hi, this]
        · have : e.toNat ≠ i := by omega
          simp [hie, hi, this]
      · have : e.toNat ≠ i := by omega
        simp [hi, this]

/-- C4: in fixed-layout mode, when every entry of the inhibitory layout is in
`[0, m_cNeurons)`, `getNeuronOrder` returns a vector of length `m_cNeurons` whose
element `i` is `INH` exactly when `i` occurs in the layout and `EXC` exactly when it
does not; the vector is the same for every stream of draws and every state of the
generator, and no draw is consumed. -/
theorem C4_fixed_layout_type_assignment (net : Network)
    (hmode : net.m_fFixedLayout = true)
    (hl : ∀ e, e ∈ net.m_pInhibitoryNeuronLayout → 0 ≤ e ∧ e < net.m_cNeurons) :
    ∃ order,
      (∀ (draws : Nat → ℚ) (count : Nat),
        getNeuronOrder draws { net with rngCount := count } =
          some (order, { net with rngCount := count })) ∧
      order.length = net.m_cNeurons ∧
      ∀ i, i < net.m_cNeurons →
        (order[i]? = some neuronType.INH ↔ (i : Int) ∈ net.m_pInhibitoryNeuronLayout) ∧
        (order[i]? = some neuronType.EXC ↔ (i : Int) ∉ net.m_pInhibitoryNeuronLayout) := by
  obtain ⟨w, hw, hwl, hwi⟩ := setAtInt_fold neuronType.INH net.m_pInhibitoryNeuronLayout
    (List.replicate net.m_cNeurons neuronType.EXC) (by simpa using hl)
  refine ⟨w, ?_, by simpa using hwl, ?_⟩
  · intro draws count
    simp only [getNeuronOrder, hmode, if_true, hw]
  · intro i hi
    rw [hwi i]
    by_cases hm : (i : Int) ∈ net.m_pInhibitoryNeuronLayout
    · simp [hm, hi]
    · simp [hm, hi, List.getElem?_replicate]

/-! ## Theorems: starter neurons -/

theorem drawnIndex_valid (draws : Nat → ℚ) (net : Network) (count : Nat)
    (hd : ∀ n, 0 ≤ draws n ∧ draws n < 1) (hN : 0 < net.m_cNeurons) :
    0 ≤ static_cast_int (inRange draws count 0 net.m_cNeurons) ∧
      drawnIndex draws net count < net.m_cNeurons := by
  have h := static_cast_int_index (draws count) net.m_cNeurons (hd count).1 (hd count).2 hN
  simpa [drawnIndex, inRange] using h

theorem count_set_true : ∀ (l : List Bool) (i : Nat), l[i]? = some false →
    (l.set i true).count true = l.count true + 1 := by
  intro l
  induction l with
  | nil => intro i h; simp at h
  | cons b rest ih =>
    intro i h
    cases i with
    | zero =>
      simp at h
      subst h
      simp
    | succ i =>
      simp at h
      simp [List.set_cons_succ, List.count_cons, ih i h]
      omega

theorem initStarterMapLoop_skip (draws : Nat → ℚ) (fuel : Nat) (net : Network) (a : Nat)
    (t : Option neuronType) (hlt : a < net.m_cStarterNeurons)
    (hi0 : 0 ≤ static_cast_int (inRange draws net.rngCount 0 net.m_cNeurons))
    (hT : net.m_rgNeuronTypeMap[drawnIndex draws net net.rngCount]? = some t)
    (hskip : t ≠ some neuronType.EXC ∨
      net.m_rgEndogenouslyActiveNeuronMap[drawnIndex draws net net.rngCount]? = some true) :
    initStarterMapLoop draws (fuel + 1) net a =
      initStarterMapLoop draws fuel { net with rngCount := net.rngCount + 1 } a := by
  unfold drawnIndex at hT hskip
  rw [initStarterMapLoop]
  simp only [hlt, if_true, getAtInt, hi0, hT]
  by_cases ht : t = some neuronType.EXC
  · rcases hskip with h | h
    · exact absurd ht h
    · simp only [ht, if_true, h]
  · simp only [ht, if_false]

theorem initStarterMapLoop_mark (draws : Nat → ℚ) (fuel : Nat) (net : Network) (a : Nat)
    (hlt : a < net.m_cStarterNeurons)
    (hi0 : 0 ≤ static_cast_int (inRange draws net.rngCount 0 net.m_cNeurons))
    (hT : net.m_rgNeuronTypeMap[drawnIndex draws net net.rngCount]? =
      some (some neuronType.EXC))
    (hM : net.m_rgEndogenouslyActiveNeuronMap[drawnIndex draws net net.rngCount]? =
      some false) :
    initStarterMapLoop draws (fuel + 1) net a =
      initStarterMapLoop draws fuel
        { net with rngCount := net.rngCount + 1,
                   m_rgEndogenouslyActiveNeuronMap :=
                     net.m_rgEndogenouslyActiveNeuronMap.set
                       (drawnIndex draws net net.rngCount) true } (a + 1) := by
  unfold drawnIndex at hT hM ⊢
  rw [initStarterMapLoop]
  simp only [hlt, if_true, getAtInt, hi0, hT, hM]

theorem initStarterMapLoop_spec (draws : Nat → ℚ) (hd : ∀ n, 0 ≤ draws n ∧ draws n < 1) :
    ∀ (L : Nat) (net : Network) (a : Nat),
      net.m_rgNeuronTypeMap.length = net.m_cNeurons →
      net.m_rgEndogenouslyActiveNeuronMap.length = net.m_cNeurons →
      starterCount net = a →
      (∀ i : Nat, net.m_rgEndogenouslyActiveNeuronMap[i]? = some true →
        net.m_rgNeuronTypeMap[i]? = some (some neuronType.EXC)) →
      a ≤ net.m_cStarterNeurons →
      net.m_cStarterNeurons ≤ a + (suppliedStarters draws net L).card →
      ∃ net1 used, used ≤ L ∧
        (∀ fuel, L ≤ fuel → initStarterMapLoop draws fuel net a = Outcome.done net1) ∧
        net1 = { net with rngCount := net.rngCount + used,
                          m_rgEndogenouslyActiveNeuronMap :=
                            net1.m_rgEndogenouslyActiveNeuronMap } ∧
        net1.m_rgEndogenouslyActiveNeuronMap.length = net.m_cNeurons ∧
        starterCount net1 = net.m_cStarterNeurons ∧
        (∀ i : Nat, net1.m_rgEndogenouslyActiveNeuronMap[i]? = some true →
          net.m_rgNeuronTypeMap[i]? = some (some neuronType.EXC)) ∧
        (∀ i : Nat, net.m_rgEndogenouslyActiveNeuronMap[i]? = some true →
          net1.m_rgEndogenouslyActiveNeuronMap[i]? = some true) := by
  intro L
  induction L with
  | zero =>
    intro net a hT hM hc hexc ha hsup
    have hstop : ¬ a < net.m_cStarterNeurons := by
      simp [suppliedStarters] at hsup; omega
    refine ⟨net, 0, le_refl _, ?_, rfl, hM, by omega, hexc, fun _ h => h⟩
    intro fuel _
    cases fuel <;> simp [initStarterMapLoop, hstop]
  | succ L ih =>
    intro net a hT hM hc hexc ha hsup
    by_cases hlt : a < net.m_cStarterNeurons
    · -- the loop runs once more
      have hne : (suppliedStarters draws net (L + 1)).Nonempty := by
        rw [← Finset.card_pos]; omega
      obtain ⟨x, hx⟩ := hne
      have hN : 0 < net.m_cNeurons := by
        simp only [suppliedStarters, Finset.mem_filter] at hx
        have h1 := hx.2.1
        by_contra h0
        rw [List.getElem?_eq_none (by omega)] at h1
        cases h1
      obtain ⟨hi0, hi1⟩ := drawnIndex_valid draws net net.rngCount hd hN
      have hiT : drawnIndex draws net net.rngCount < net.m_rgNeuronTypeMap.length := by omega
      have hiM : drawnIndex draws net net.rngCount <
          net.m_rgEndogenouslyActiveNeuronMap.length := by omega
      have hTi := List.getElem?_eq_getElem hiT
      have hMi := List.getElem?_eq_getElem hiM
      by_cases hmark : net.m_rgNeuronTypeMap[drawnIndex draws net net.rngCount] =
            some neuronType.EXC ∧
          net.m_rgEndogenouslyActiveNeuronMap[drawnIndex draws net net.rngCount] = false
      · -- neuron `i` is marked
        rw [hmark.1] at hTi
        rw [hmark.2] at hMi
        have hsub : suppliedStarters draws net (L + 1) ⊆
            insert (drawnIndex draws net net.rngCount)
              (suppliedStarters draws
                { net with rngCount := net.rngCount + 1,
                           m_rgEndogenouslyActiveNeuronMap :=
                             net.m_rgEndogenouslyActiveNeuronMap.set
                               (drawnIndex draws net net.rngCount) true } L) := by
          intro y hy
          simp only [suppliedStarters, Finset.mem_filter, Finset.mem_image,
            Finset.mem_range, Finset.mem_insert] at hy ⊢
          obtain ⟨⟨j, hj, hjy⟩, hy1, hy2⟩ := hy
          by_cases hyi : y = drawnIndex draws net net.rngCount
          · exact Or.inl hyi
          · right
            cases j with
            | zero => exact absurd hjy.symm hyi
            | succ j =>
              refine ⟨⟨j, by omega, ?_⟩, hy1, ?_⟩
              · rw [← hjy]
                show drawnIndex draws net (net.rngCount + 1 + j) = _
                congr 1; omega
              · rw [List.getElem?_set_ne (Ne.symm hyi)]
                exact hy2
        have hcard := (Finset.card_le_card hsub).trans (Finset.card_insert_le _ _)
        obtain ⟨net1, used, hu, hrun, heq, hlen, hcnt, hexc1, hmono⟩ := ih
          { net with rngCount := net.rngCount + 1,
                     m_rgEndogenouslyActiveNeuronMap :=
                       net.m_rgEndogenouslyActiveNeuronMap.set
                         (drawnIndex draws net net.rngCount) true } (a + 1)
          hT (by simpa using hM)
          (by
            show List.count true _ = a + 1
            rw [count_set_true _ _ hMi]
            exact congrArg (· + 1) hc)
          (by
            intro k hk
            by_cases hki : drawnIndex draws net net.rngCount = k
            · rw [← hki]; exact hTi
            · apply hexc
              have hk2 : (net.m_rgEndogenouslyActiveNeuronMap.set
                  (drawnIndex draws net net.rngCount) true)[k]? = some true := hk
              rwa [List.getElem?_set_ne hki] at hk2)
          (by
            show a + 1 ≤ net.m_cStarterNeurons
            omega)
          (by
            show net.m_cStarterNeurons ≤ a + 1 + _
            omega)
        refine ⟨net1, used + 1, by omega, ?_, ?_, hlen, hcnt, hexc1, ?_⟩
        · intro fuel hf
          obtain ⟨f, rfl⟩ : ∃ f, fuel = f + 1 := ⟨fuel - 1, by omega⟩
          rw [initStarterMapLoop_mark draws f net a hlt hi0 hTi hMi]
          exact hrun f (by omega)
        · rw [heq]
          simp only [Nat.add_assoc, Nat.add_comm 1 used]
        · intro k hk
          apply hmono
          show (net.m_rgEndogenouslyActiveNeuronMap.set
            (drawnIndex draws net net.rngCount) true)[k]? = some true
          by_cases hki : drawnIndex draws net net.rngCount = k
          · rw [← hki, List.getElem?_set_self hiM]
          · rwa [List.getElem?_set_ne hki]
      · -- neuron `i` is not `EXC` or is already marked: only the draw is consumed
        have hskip : net.m_rgNeuronTypeMap[drawnIndex draws net net.rngCount] ≠
              some neuronType.EXC ∨
            net.m_rgEndogenouslyActiveNeuronMap[drawnIndex draws net net.rngCount]? =
              some true := by
          by_cases h1 : net.m_rgNeuronTypeMap[drawnIndex draws net net.rngCount] =
              some neuronType.EXC
          · right
            rw [hMi]
            have h2 : net.m_rgEndogenouslyActiveNeuronMap[drawnIndex draws net net.rngCount] ≠
                false := fun h => hmark ⟨h1, h⟩
            simpa using h2
          · exact Or.inl h1
        have hsub : suppliedStarters draws net (L + 1) ⊆
            suppliedStarters draws { net with rngCount := net.rngCount + 1 } L := by
          intro y hy
          simp only [suppliedStarters, Finset.mem_filter, Finset.mem_image,
            Finset.mem_range] at hy ⊢
          obtain ⟨⟨j, hj, hjy⟩, hy1, hy2⟩ := hy
          cases j with
          | zero =>
            exfalso
            have hjy2 : drawnIndex draws net net.rngCount = y := hjy
            rw [← hjy2, hTi] at hy1
            rw [← hjy2] at hy2
            rcases hskip with h | h
            · exact h (Option.some.inj hy1)
            · rw [h] at hy2; cases hy2
          | succ j =>
            refine ⟨⟨j, by omega, ?_⟩, hy1, hy2⟩
            rw [← hjy]
            show drawnIndex draws net (net.rngCount + 1 + j) = _
            congr 1; omega
        have hcard := Finset.card_le_card hsub
        obtain ⟨net1, used, hu, hrun, heq, hlen, hcnt, hexc1, hmono⟩ := ih
          { net with rngCount := net.rngCount + 1 } a hT hM hc hexc ha
          (by
            show net.m_cStarterNeurons ≤ a + _
            omega)
        refine ⟨net1, used + 1, by omega, ?_, ?_, hlen, hcnt, hexc1, hmono⟩
        · intro fuel hf
          obtain ⟨f, rfl⟩ : ∃ f, fuel = f + 1 := ⟨fuel - 1, by omega⟩
          rw [initStarterMapLoop_skip draws f net a _ hlt hi0 hTi hskip]
          exact hrun f (by omega)
        · rw [heq]
          simp only [Nat.add_assoc, Nat.add_comm 1 used]
    · refine ⟨net, 0, Nat.zero_le _, ?_, rfl, hM, by omega, hexc, fun _ h => h⟩
      intro fuel _
      cases fuel <;> simp [initStarterMapLoop, hlt]

theorem count_true_le_count_exc : ∀ (m : List Bool) (t : List (Option neuronType)),
    (∀ i : Nat, m[i]? = some true → t[i]? = some (some neuronType.EXC)) →
    m.count true ≤ t.count (some neuronType.EXC) := by
  intro m
  induction m with
  | nil => intro t _; simp
  | cons b rest ih =>
    intro t h
    cases t with
    | nil =>
      have hb : b = false := by
        cases b
        · rfl
        · have := h 0 (by simp); simp at this
      have hr := ih [] (fun i hi => by have := h (i + 1) (by simpa using hi); simp at this)
      subst hb
      simpa using hr
    | cons u us =>
      have hr := ih us (fun i hi => by simpa using h (i + 1) (by simpa using hi))
      cases b
      · simp only [List.count_cons, Bool.false_eq_true, beq_iff_eq, if_false, Nat.add_zero]
        exact hr.trans (Nat.le_add_right _ _)
      · have hu : u = some neuronType.EXC := by simpa using h 0 (by simp)
        subst hu
        simpa [List.count_cons] using hr

/-- With fewer `EXC` neurons than starters asked for, the loop of `initStarterMap`
never ends normally. -/
theorem initStarterMapLoop_never_done (draws : Nat → ℚ) :
    ∀ (fuel : Nat) (net : Network) (a : Nat),
      starterCount net = a →
      (∀ i : Nat, net.m_rgEndogenouslyActiveNeuronMap[i]? = some true →
        net.m_rgNeuronTypeMap[i]? = some (some neuronType.EXC)) →
      excitatoryCount net < net.m_cStarterNeurons →
      (initStarterMapLoop draws fuel net a = Outcome.outOfFuel ∨
        initStarterMapLoop draws fuel net a = Outcome.undefined) ∧
      ((∀ n, 0 ≤ draws n ∧ draws n < 1) → 0 < net.m_cNeurons →
        net.m_rgNeuronTypeMap.length = net.m_cNeurons →
        net.m_rgEndogenouslyActiveNeuronMap.length = net.m_cNeurons →
        initStarterMapLoop draws fuel net a = Outcome.outOfFuel) := by
  intro fuel
  induction fuel with
  | zero =>
    intro net a hc hexc hfew
    have hle := count_true_le_count_exc _ _ hexc
    have hlt : a < net.m_cStarterNeurons := by
      unfold starterCount at hc; unfold excitatoryCount at hfew; omega
    simp [initStarterMapLoop, hlt]
  | succ fuel ih =>
    intro net a hc hexc hfew
    have hle := count_true_le_count_exc _ _ hexc
    have hlt : a < net.m_cStarterNeurons := by
      unfold starterCount at hc; unfold excitatoryCount at hfew; omega
    have hskipnet := ih { net with rngCount := net.rngCount + 1 } a hc hexc hfew
    constructor
    · rw [initStarterMapLoop]
      simp only [hlt, if_true]
      cases hT : getAtInt net.m_rgNeuronTypeMap
          (static_cast_int (inRange draws net.rngCount 0 net.m_cNeurons)) with
      | none => exact Or.inr rfl
      | some t =>
        by_cases ht : t = some neuronType.EXC
        · simp only [ht, if_true]
          cases hM : getAtInt net.m_rgEndogenouslyActiveNeuronMap
              (static_cast_int (inRange draws net.rngCount 0 net.m_cNeurons)) with
          | none => exact Or.inr rfl
          | some b =>
            cases b with
            | true => exact hskipnet.1
            | false =>
              have hi0 : 0 ≤ static_cast_int (inRange draws net.rngCount 0 net.m_cNeurons) := by
                by_contra hneg
                simp [getAtInt, hneg] at hM
              simp only [getAtInt, hi0, if_true] at hM hT
              rw [ht] at hT
              refine (ih { net with rngCount := net.rngCount + 1,
                                    m_rgEndogenouslyActiveNeuronMap :=
                                      net.m_rgEndogenouslyActiveNeuronMap.set
                                        (static_cast_int (inRange draws net.rngCount 0
                                          net.m_cNeurons)).toNat true }
                (a + 1) ?_ ?_ hfew).1
              · show List.count true _ = a + 1
                rw [count_set_true _ _ hM]
                exact congrArg (· + 1) hc
              · intro k hk
                have hk2 : (net.m_rgEndogenouslyActiveNeuronMap.set
                  (static_cast_int (inRange draws net.rngCount 0 net.m_cNeurons)).toNat
                  true)[k]? = some true := hk
                by_cases hki :
                    (static_cast_int (inRange draws net.rngCount 0 net.m_cNeurons)).toNat = k
                · rw [← hki]; exact hT
                · rw [List.getElem?_set_ne hki] at hk2
                  exact hexc k hk2
        · simp only [ht, if_false]
          exact hskipnet.1
    · intro hd hN hTl hMl
      obtain ⟨hi0, hi1⟩ := drawnIndex_valid draws net net.rngCount hd hN
      have hiT : drawnIndex draws net net.rngCount < net.m_rgNeuronTypeMap.length := by omega
      have hiM : drawnIndex draws net net.rngCount <
          net.m_rgEndogenouslyActiveNeuronMap.length := by omega
      have hTi := List.getElem?_eq_getElem hiT
      have hMi := List.getElem?_eq_getElem hiM
      by_cases hmark : net.m_rgNeuronTypeMap[drawnIndex draws net net.rngCount] =
            some neuronType.EXC ∧
          net.m_rgEndogenouslyActiveNeuronMap[drawnIndex draws net net.rngCount] = false
      · rw [hmark.1] at hTi
        rw [hmark.2] at hMi
        rw [initStarterMapLoop_mark draws fuel net a hlt hi0 hTi hMi]
        refine (ih { net with rngCount := net.rngCount + 1,
                              m_rgEndogenouslyActiveNeuronMap :=
                                net.m_rgEndogenouslyActiveNeuronMap.set
                                  (drawnIndex draws net net.rngCount) true }
          (a + 1) ?_ ?_ hfew).2 hd hN hTl (by simpa using hMl)
        · show List.count true _ = a + 1
          rw [count_set_true _ _ hMi]
          exact congrArg (· + 1) hc
        · intro k hk
          have hk2 : (net.m_rgEndogenouslyActiveNeuronMap.set
            (drawnIndex draws net net.rngCount) true)[k]? = some true := hk
          by_cases hki : drawnIndex draws net net.rngCount = k
          · rw [← hki]; exact hTi
          · rw [List.getElem?_set_ne hki] at hk2
            exact hexc k hk2
      · have hskip : net.m_rgNeuronTypeMap[drawnIndex draws net net.rngCount] ≠
              some neuronType.EXC ∨
            net.m_rgEndogenouslyActiveNeuronMap[drawnIndex draws net net.rngCount]? =
              some true := by
          by_cases h1 : net.m_rgNeuronTypeMap[drawnIndex draws net net.rngCount] =
              some neuronType.EXC
          · right
            rw [hMi]
            have h2 : net.m_rgEndogenouslyActiveNeuronMap[drawnIndex draws net net.rngCount] ≠
                false := fun h => hmark ⟨h1, h⟩
            simpa using h2
          · exact Or.inl h1
        rw [initStarterMapLoop_skip draws fuel net a _ hlt hi0 hTi hskip]
        exact hskipnet.2 hd hN hTl hMl

theorem starterCount_replicate_false (net : Network)
    (hM : net.m_rgEndogenouslyActiveNeuronMap = List.replicate net.m_cNeurons false) :
    starterCount net = 0 ∧
    (∀ i : Nat, net.m_rgEndogenouslyActiveNeuronMap[i]? = some true →
      net.m_rgNeuronTypeMap[i]? = some (some neuronType.EXC)) := by
  constructor
  · unfold starterCount; rw [hM]; simp [List.count_replicate]
  · intro i hi
    rw [hM, List.getElem?_replicate] at hi
    split at hi <;> simp at hi

theorem zeroDraws_range : ∀ n, 0 ≤ zeroDraws n ∧ zeroDraws n < 1 := by
  intro n; simp [zeroDraws]

theorem midDraws_range : ∀ n, 0 ≤ midDraws n ∧ midDraws n < 1 := by
  intro n
  unfold midDraws
  split <;> norm_num

theorem card_filter_getElem?_eq_count (a : Option neuronType) (l : List (Option neuronType)) :
    ((Finset.range l.length).filter (fun i => l[i]? = some a)).card = l.count a := by
  induction l using List.reverseRecOn with
  | nil => simp
  | append_singleton l b ih =>
    have hf : (Finset.range l.length).filter (fun i => (l ++ [b])[i]? = some a) =
        (Finset.range l.length).filter (fun i => l[i]? = some a) := by
      apply Finset.filter_congr
      intro i hi
      rw [List.getElem?_append_left (by simpa using hi)]
    rw [List.length_append, List.length_singleton, Finset.range_succ, Finset.filter_insert, hf]
    by_cases hb : b = a
    · subst hb
      simp [ih]
    · have hb2 : ¬ (l ++ [b])[l.length]? = some a := by simp [hb]
      rw [if_neg hb2, ih]
      simp [List.count_append, List.count_singleton, hb]

/-- Every `EXC` neuron that one of the next `L` draws selects is among the neurons the
draws supply when no neuron is marked yet. -/
theorem excitatory_le_suppliedStarters (draws : Nat → ℚ) (net : Network)
    (hT : net.m_rgNeuronTypeMap.length = net.m_cNeurons)
    (hM : net.m_rgEndogenouslyActiveNeuronMap = List.replicate net.m_cNeurons false)
    (hsel : ∀ i : Nat, net.m_rgNeuronTypeMap[i]? = some (some neuronType.EXC) →
      ∃ j, drawnIndex draws net (net.rngCount + j) = i) :
    ∃ L, excitatoryCount net ≤ (suppliedStarters draws net L).card := by
  have hch : ∀ i : Nat, ∃ j, net.m_rgNeuronTypeMap[i]? = some (some neuronType.EXC) →
      drawnIndex draws net (net.rngCount + j) = i := by
    intro i
    by_cases h : net.m_rgNeuronTypeMap[i]? = some (some neuronType.EXC)
    · obtain ⟨j, hj⟩ := hsel i h
      exact ⟨j, fun _ => hj⟩
    · exact ⟨0, fun h2 => absurd h2 h⟩
  choose pos hpos using hch
  refine ⟨(Finset.range net.m_cNeurons).sup (fun i => pos i + 1), ?_⟩
  unfold excitatoryCount
  rw [← card_filter_getElem?_eq_count (some neuronType.EXC) net.m_rgNeuronTypeMap, hT]
  apply Finset.card_le_card
  intro i hi
  rw [Finset.mem_filter, Finset.mem_range] at hi
  unfold suppliedStarters
  rw [Finset.mem_filter, Finset.mem_image]
  refine ⟨⟨pos i, ?_, hpos i hi.2⟩, hi.2, ?_⟩
  · rw [Finset.mem_range]
    have hle : pos i + 1 ≤ (Finset.range net.m_cNeurons).sup (fun i => pos i + 1) :=
      Finset.le_sup (f := fun i => pos i + 1) (Finset.mem_range.mpr hi.1)
    omega
  · rw [hM, List.getElem?_replicate]
    simp [hi.1]

/-- In random mode, started from the all-false starter map, for every stream of draws in
`[0,1)`: if the next `L` draws select at least `m_cStarterNeurons` different `EXC`
neurons, the loop of `initStarterMap` ends within `L` draws (every allowance of `L` or
more iterations gives the same result), and then exactly `m_cStarterNeurons` neurons
are marked, each of them `EXC`; nothing but the starter map and the count of draws has
changed. -/
theorem initStarterMap_supplied (draws : Nat → ℚ) (net : Network) (L : Nat)
    (hmode : net.m_fFixedLayout = false)
    (hT : net.m_rgNeuronTypeMap.length = net.m_cNeurons)
    (hM : net.m_rgEndogenouslyActiveNeuronMap = List.replicate net.m_cNeurons false)
    (hd : ∀ n, 0 ≤ draws n ∧ draws n < 1)
    (hsup : net.m_cStarterNeurons ≤ (suppliedStarters draws net L).card) :
    ∃ net1 used, used ≤ L ∧
      (∀ fuel, L ≤ fuel → initStarterMap draws fuel net = Outcome.done net1) ∧
      net1 = { net with rngCount := net.rngCount + used,
                        m_rgEndogenouslyActiveNeuronMap :=
                          net1.m_rgEndogenouslyActiveNeuronMap } ∧
      net1.m_rgEndogenouslyActiveNeuronMap.length = net.m_cNeurons ∧
      starterCount net1 = net.m_cStarterNeurons ∧
      (∀ i : Nat, net1.m_rgEndogenouslyActiveNeuronMap[i]? = some true →
        net.m_rgNeuronTypeMap[i]? = some (some neuronType.EXC)) := by
  obtain ⟨hc, hexc⟩ := starterCount_replicate_false net hM
  obtain ⟨net1, used, hu, hrun, heq, hlen, hcnt, hexc1, _⟩ :=
    initStarterMapLoop_spec draws hd L net 0 hT (by rw [hM]; simp) hc hexc (Nat.zero_le _)
      (by omega)
  refine ⟨net1, used, hu, ?_, heq, hlen, hcnt, hexc1⟩
  intro fuel hf
  simp only [initStarterMap, hmode, Bool.false_eq_true, if_false]
  exact hrun fuel hf

/-- C5: random-mode starter assignment, started from the all-false starter map that
`reset` produces and a type map with at least `m_cStarterNeurons` `EXC` entries, for
every stream of draws in `[0,1)` that comes to select each `EXC` neuron, as the draws
of a generator that samples the indices uniformly do.  The loop of `initStarterMap`
terminates (every allowance of `L` or more iterations gives the same result), and then
exactly `m_cStarterNeurons` neurons are marked and each of them is `EXC`; nothing but
the starter map and the count of draws has changed.  The loop counts a neuron only
when it finds it unmarked and ends when its counter reaches `m_cStarterNeurons`, so the
number of marked neurons equals the counter: no neuron is counted twice. -/
theorem C5_random_starter_assignment (draws : Nat → ℚ) (net : Network)
    (hmode : net.m_fFixedLayout = false)
    (hT : net.m_rgNeuronTypeMap.length = net.m_cNeurons)
    (hM : net.m_rgEndogenouslyActiveNeuronMap = List.replicate net.m_cNeurons false)
    (henough : net.m_cStarterNeurons ≤ excitatoryCount net)
    (hd : ∀ n, 0 ≤ draws n ∧ draws n < 1)
    (hsel : ∀ i : Nat, net.m_rgNeuronTypeMap[i]? = some (some neuronType.EXC) →
      ∃ j, drawnIndex draws net (net.rngCount + j) = i) :
    ∃ net1 used L, used ≤ L ∧
      (∀ fuel, L ≤ fuel → initStarterMap draws fuel net = Outcome.done net1) ∧
      net1 = { net with rngCount := net.rngCount + used,
                        m_rgEndogenouslyActiveNeuronMap :=
                          net1.m_rgEndogenouslyActiveNeuronMap } ∧
      net1.m_rgEndogenouslyActiveNeuronMap.length = net.m_cNeurons ∧
      starterCount net1 = net.m_cStarterNeurons ∧
      (∀ i : Nat, net1.m_rgEndogenouslyActiveNeuronMap[i]? = some true →
        net.m_rgNeuronTypeMap[i]? = some (some neuronType.EXC)) := by
  obtain ⟨L, hL⟩ := excitatory_le_suppliedStarters draws net hT hM hsel
  obtain ⟨net1, used, hu, hrun, heq, hlen, hcnt, hexc1⟩ :=
    initStarterMap_supplied draws net L hmode hT hM hd (by omega)
  exact ⟨net1, used, L, hu, hrun, heq, hlen, hcnt, hexc1⟩

theorem drawnIndex_midDraws_threeNeurons :
    drawnIndex midDraws threeNeurons 0 = 1 ∧ drawnIndex midDraws threeNeurons 1 = 2 := by
  have h0 : Int.floor ((1 : ℚ) / 2 * 3) = 1 := by
    rw [Int.floor_eq_iff]; norm_num
  have h1 : Int.floor ((3 : ℚ) / 4 * 3) = 2 := by
    rw [Int.floor_eq_iff]; norm_num
  constructor
  · have hp : (0 : ℚ) ≤ 1 / 2 * 3 := by norm_num
    simp only [drawnIndex, inRange, midDraws, threeNeurons, rowNetwork, static_cast_int,
      Nat.cast_ofNat, sub_zero, zero_add, Nat.zero_mod, if_true, hp, h0]
    rfl
  · have hp : (0 : ℚ) ≤ 3 / 4 * 3 := by norm_num
    simp only [drawnIndex, inRange, midDraws, threeNeurons, rowNetwork, static_cast_int,
      Nat.cast_ofNat, sub_zero, zero_add, Nat.one_mod, one_ne_zero, if_false, if_true, hp, h1]
    rfl

theorem suppliedStarters_threeNeurons : suppliedStarters midDraws threeNeurons 2 = {1, 2} := by
  have h := drawnIndex_midDraws_threeNeurons
  have h0 : drawnIndex midDraws threeNeurons (threeNeurons.rngCount + 0) = 1 := h.1
  have h1 : drawnIndex midDraws threeNeurons (threeNeurons.rngCount + 1) = 2 := h.2
  unfold suppliedStarters
  rw [show Finset.range 2 = {0, 1} from rfl, Finset.image_insert, Finset.image_singleton, h0, h1]
  decide

theorem threeNeurons_selected : ∀ i : Nat,
    threeNeurons.m_rgNeuronTypeMap[i]? = some (some neuronType.EXC) →
    ∃ j, drawnIndex midDraws threeNeurons (threeNeurons.rngCount + j) = i := by
  intro i hi
  have h := drawnIndex_midDraws_threeNeurons
  match i, hi with
  | 0, hi => simp [threeNeurons] at hi
  | 1, _ => exact ⟨0, h.1⟩
  | 2, _ => exact ⟨1, h.2⟩
  | k + 3, hi => simp [threeNeurons] at hi

/-- An instance of C5: three neurons, the last two `EXC`, two starters asked for; the
draws `1/2` and `3/4` select neurons 1 and 2. -/
theorem C5_random_starter_assignment_witness :
    threeNeurons.m_cStarterNeurons ≤ excitatoryCount threeNeurons ∧
    (∀ i : Nat, threeNeurons.m_rgNeuronTypeMap[i]? = some (some neuronType.EXC) →
      ∃ j, drawnIndex midDraws threeNeurons (threeNeurons.rngCount + j) = i) ∧
    ∃ net1 used L, used ≤ L ∧
      (∀ fuel, L ≤ fuel → initStarterMap midDraws fuel threeNeurons = Outcome.done net1) ∧
      net1 = { threeNeurons with rngCount := threeNeurons.rngCount + used,
                                 m_rgEndogenouslyActiveNeuronMap :=
                                   net1.m_rgEndogenouslyActiveNeuronMap } ∧
      net1.m_rgEndogenouslyActiveNeuronMap.length = threeNeurons.m_cNeurons ∧
      starterCount net1 = threeNeurons.m_cStarterNeurons ∧
      (∀ i : Nat, net1.m_rgEndogenouslyActiveNeuronMap[i]? = some true →
        threeNeurons.m_rgNeuronTypeMap[i]? = some (some neuronType.EXC)) :=
  ⟨by decide, threeNeurons_selected,
   C5_random_starter_assignment midDraws threeNeurons rfl rfl rfl (by decide) midDraws_range
     threeNeurons_selected⟩

theorem twoExcitatory_stuck : ∀ (fuel count : Nat),
    initStarterMapLoop zeroDraws fuel
      { twoExcitatory with rngCount := count,
                           m_rgEndogenouslyActiveNeuronMap := [true, false] } 1 =
      Outcome.outOfFuel := by
  intro fuel
  induction fuel with
  | zero => intro count; simp [initStarterMapLoop, twoExcitatory, rowNetwork]
  | succ fuel ih =>
    intro count
    rw [initStarterMapLoop_skip zeroDraws fuel _ 1 (some neuronType.EXC)
      (by simp [twoExcitatory, rowNetwork])
      (by simp [inRange, zeroDraws, static_cast_int])
      (by simp [drawnIndex, inRange, zeroDraws, static_cast_int, twoExcitatory])
      (Or.inr (by simp [drawnIndex, inRange, zeroDraws, static_cast_int]))]
    exact ih (count + 1)

/-- The loop of `initStarterMap` ends only if the draws come to select enough `EXC`
neurons: with two `EXC` neurons, two starters asked for, the starter map all false and
the stream whose every draw is 0, which never selects neuron 1, the loop marks neuron
0 and then selects it again for ever. -/
theorem initStarterMap_zeroDraws_never_done :
    (∀ n, 0 ≤ zeroDraws n ∧ zeroDraws n < 1) ∧
    twoExcitatory.m_fFixedLayout = false ∧
    twoExcitatory.m_rgEndogenouslyActiveNeuronMap = [false, false] ∧
    twoExcitatory.m_cStarterNeurons ≤ excitatoryCount twoExcitatory ∧
    ¬ ∃ fuel net1, initStarterMap zeroDraws fuel twoExcitatory = Outcome.done net1 := by
  refine ⟨zeroDraws_range, rfl, rfl, by decide, ?_⟩
  rintro ⟨fuel, net1, h⟩
  simp only [initStarterMap, twoExcitatory, rowNetwork, Bool.false_eq_true, if_false] at h
  cases fuel with
  | zero => simp [initStarterMapLoop] at h
  | succ fuel =>
    rw [initStarterMapLoop_mark zeroDraws fuel _ 0 (by simp)
      (by simp [inRange, zeroDraws, static_cast_int])
      (by simp [drawnIndex, inRange, zeroDraws, static_cast_int])
      (by simp [drawnIndex, inRange, zeroDraws, static_cast_int])] at h
    have hs := twoExcitatory_stuck fuel 1
    simp only [twoExcitatory, rowNetwork, drawnIndex, inRange, zeroDraws, static_cast_int] at hs h
    simp at h
    simp at hs
    rw [hs] at h
    cases h

/-- C6, amended: `initStarterMap` does not check that the starters asked for can be
found.  In random mode, started from the all-false starter map, when the type map has
fewer `EXC` elements than `m_cStarterNeurons`, no number of iterations ends the loop
normally, for any stream of draws; for draws in `[0,1)` and a type map of
`m_cNeurons > 0` elements the loop is still running after every number of
iterations. -/
theorem C6_starter_target_not_validated (draws : Nat → ℚ) (net : Network)
    (hmode : net.m_fFixedLayout = false)
    (hM : net.m_rgEndogenouslyActiveNeuronMap = List.replicate net.m_cNeurons false)
    (hfew : excitatoryCount net < net.m_cStarterNeurons) :
    (∀ fuel net1, initStarterMap draws fuel net ≠ Outcome.done net1) ∧
    ((∀ n, 0 ≤ draws n ∧ draws n < 1) → 0 < net.m_cNeurons →
      net.m_rgNeuronTypeMap.length = net.m_cNeurons →
      ∀ fuel, initStarterMap draws fuel net = Outcome.outOfFuel) := by
  obtain ⟨hc, hexc⟩ := starterCount_replicate_false net hM
  constructor
  · intro fuel net1 h
    simp only [initStarterMap, hmode, Bool.false_eq_true, if_false] at h
    rcases (initStarterMapLoop_never_done draws fuel net 0 hc hexc hfew).1 with h1 | h1
    · rw [h1] at h; cases h
    · rw [h1] at h; cases h
  · intro hd hN hT fuel
    simp only [initStarterMap, hmode, Bool.false_eq_true, if_false]
    exact (initStarterMapLoop_never_done draws fuel net 0 hc hexc hfew).2 hd hN hT
      (by rw [hM]; simp)

/-- An instance of C6: one `EXC` neuron, two starters asked for. -/
theorem C6_starter_target_not_validated_witness :
    excitatoryCount oneExcitatory < oneExcitatory.m_cStarterNeurons ∧
    (∀ fuel net1, initStarterMap zeroDraws fuel oneExcitatory ≠ Outcome.done net1) ∧
    ((∀ n, 0 ≤ zeroDraws n ∧ zeroDraws n < 1) → 0 < oneExcitatory.m_cNeurons →
      oneExcitatory.m_rgNeuronTypeMap.length = oneExcitatory.m_cNeurons →
      ∀ fuel, initStarterMap zeroDraws fuel oneExcitatory = Outcome.outOfFuel) :=
  ⟨by decide, C6_starter_target_not_validated zeroDraws oneExcitatory rfl rfl (by decide)⟩

/-- C6 as stated fails: with two `EXC` neurons among three and three starters asked
for, `initStarterMap` reports nothing and its loop is still running after every number
of iterations. -/
theorem C6_counterexample_loops_forever :
    excitatoryCount threeNeuronsThreeStarters < threeNeuronsThreeStarters.m_cStarterNeurons ∧
    (∀ n, 0 ≤ midDraws n ∧ midDraws n < 1) ∧
    ∀ fuel, initStarterMap midDraws fuel threeNeuronsThreeStarters = Outcome.outOfFuel := by
  refine ⟨by decide, midDraws_range, ?_⟩
  intro fuel
  have hM : threeNeuronsThreeStarters.m_rgEndogenouslyActiveNeuronMap =
      List.replicate threeNeuronsThreeStarters.m_cNeurons false := rfl
  obtain ⟨hc, hexc⟩ := starterCount_replicate_false threeNeuronsThreeStarters hM
  have h := (initStarterMapLoop_never_done midDraws fuel threeNeuronsThreeStarters 0 hc hexc
    (by decide)).2 midDraws_range (by decide) rfl rfl
  simpa [initStarterMap, threeNeuronsThreeStarters, threeNeurons, rowNetwork] using h

/-! ## Instances of the theorems at concrete inputs -/

/-- An instance of C2: two neurons with two slots each, slots 1 and 2 in use, the list of neuron 0 not empty before the call. -/
theorem C2_synapseArrayToMap_lists_witness :
    c1_out.delayQueue ≠ [] ∧ 2 ≤ [[c1_s], []].length ∧
    ∃ result, synapseArrayToMap c1_out c2_store [[c1_s], []] 2 2 = some result ∧
      result.length = [[c1_s], []].length ∧
      (∀ n, n < 2 → ∃ lst, result[n]? = some lst ∧
        lst.map some = (inUseSlots c2_store 2 n).map (copyStructToSynapse c2_store c1_out) ∧
        lst.length = (inUseSlots c2_store 2 n).length ∧
        (inUseSlots c2_store 2 n).Pairwise (fun a b => a < b) ∧
        (∀ idx, idx ∈ inUseSlots c2_store 2 n ↔
          n * 2 ≤ idx ∧ idx < (n + 1) * 2 ∧ c2_store.inUse[idx]? = some true)) ∧
      (∀ n, 2 ≤ n → result[n]? = [[c1_s], []][n]?) :=
  ⟨by decide, by decide,
   C2_synapseArrayToMap_lists c1_out c2_store [[c1_s], []] 2 2 (by decide) (by decide)
     (by decide)⟩

/-- An instance of C3: three neurons, one inhibitory, the draws `1/2, 3/4, 1/2`. -/
theorem C3_random_type_assignment_witness :
    (rowNetwork 3 1 0).m_cInhibitoryNeurons ≤ (rowNetwork 3 1 0).m_cNeurons ∧
    ∃ order, getNeuronOrder midDraws (rowNetwork 3 1 0) =
        some (order, { rowNetwork 3 1 0 with
          rngCount := (rowNetwork 3 1 0).rngCount + (rowNetwork 3 1 0).m_cNeurons }) ∧
      order.length = (rowNetwork 3 1 0).m_cNeurons ∧
      order.count neuronType.INH = (rowNetwork 3 1 0).m_cInhibitoryNeurons ∧
      order.count neuronType.EXC =
        (rowNetwork 3 1 0).m_cNeurons - (rowNetwork 3 1 0).m_cInhibitoryNeurons ∧
      order.Perm (List.replicate (rowNetwork 3 1 0).m_cInhibitoryNeurons neuronType.INH ++
        List.replicate ((rowNetwork 3 1 0).m_cNeurons - (rowNetwork 3 1 0).m_cInhibitoryNeurons)
          neuronType.EXC) ∧
      initNeuronTypeMap midDraws (rowNetwork 3 1 0) =
        some { rowNetwork 3 1 0 with
          rngCount := (rowNetwork 3 1 0).rngCount + (rowNetwork 3 1 0).m_cNeurons,
          m_rgNeuronTypeMap := order.map some } :=
  ⟨by decide,
   C3_random_type_assignment midDraws (rowNetwork 3 1 0) rfl (by decide) rfl midDraws_range⟩

/-- An instance of C4: ten neurons with the inhibitory layout `[2, 5, 7]`. -/
theorem C4_fixed_layout_type_assignment_witness :
    (∀ e, e ∈ fixedNetwork.m_pInhibitoryNeuronLayout → 0 ≤ e ∧ e < fixedNetwork.m_cNeurons) ∧
    ∃ order,
      (∀ (draws : Nat → ℚ) (count : Nat),
        getNeuronOrder draws { fixedNetwork with rngCount := count } =
          some (order, { fixedNetwork with rngCount := count })) ∧
      order.length = fixedNetwork.m_cNeurons ∧
      ∀ i, i < fixedNetwork.m_cNeurons →
        (order[i]? = some neuronType.INH ↔ (i : Int) ∈ fixedNetwork.m_pInhibitoryNeuronLayout) ∧
        (order[i]? = some neuronType.EXC ↔
          (i : Int) ∉ fixedNetwork.m_pInhibitoryNeuronLayout) :=
  have hl : ∀ e, e ∈ fixedNetwork.m_pInhibitoryNeuronLayout →
      0 ≤ e ∧ e < fixedNetwork.m_cNeurons := by
    simp [fixedNetwork, rowNetwork]
  ⟨hl, C4_fixed_layout_type_assignment fixedNetwork rfl hl⟩

/-- An instance of C7: the synapse `c1_s` written to slot 0 of a one-slot store. -/
theorem C7_copySynapseToStruct_replaces_slot_witness :
    validSlot c1_store 0 ∧ c1_s.delayQueue ≠ [] ∧
    ∃ st1, copySynapseToStruct c1_s c1_store 0 = some st1 ∧
      st1.inUse[0]? = some true ∧ st1.summationPoint[0]? = some 0 ∧
      st1.W[0]? = some c1_s.W ∧ st1.decay[0]? = some c1_s.decay ∧
      st1.deltaT[0]? = some c1_s.deltaT ∧ st1.lastSpike[0]? = some c1_s.lastSpike ∧
      st1.psr[0]? = some c1_s.psr ∧ st1.r[0]? = some c1_s.r ∧
      st1.summationCoord[0]? = some c1_s.summationCoord ∧
      st1.synapseCoord[0]? = some c1_s.synapseCoord ∧
      st1.tau[0]? = some c1_s.tau ∧ st1.total_delay[0]? = some c1_s.total_delay ∧
      st1.u[0]? = some c1_s.u ∧ st1.ldelayQueue[0]? = some c1_s.ldelayQueue ∧
      st1.type[0]? = some c1_s.type ∧ st1.delayQueue[0]? = c1_s.delayQueue[0]? ∧
      (∀ s1 : DynamicSpikingSynapse, s1.delayQueue ≠ [] →
        (copySynapseToStruct s1 c1_store 0).bind (fun st2 => copySynapseToStruct c1_s st2 0) =
          some st1) :=
  ⟨by decide, by decide,
   C7_copySynapseToStruct_replaces_slot c1_s c1_store 0 (by decide) (by decide)⟩

/-! ## Theorems: the memory image, the starter table and initNeurons -/

theorem readEach_getElem? {α : Type} (l : List α) :
    ∀ n, n ≤ l.length → readEach n (fun i => l[i]?) = some (l.take n) := by
  intro n
  induction n with
  | zero => intro _; simp [readEach]
  | succ n ih =>
    intro hn
    simp only [readEach, ih (by omega), List.getElem?_eq_getElem (show n < l.length by omega)]
    rw [List.take_succ, List.getElem?_eq_getElem (show n < l.length by omega)]
    rfl

theorem readEach_congr {α : Type} (f g : Nat → Option α) :
    ∀ n, (∀ i, i < n → f i = g i) → readEach n f = readEach n g := by
  intro n
  induction n with
  | zero => intro _; rfl
  | succ n ih =>
    intro h
    simp only [readEach, ih (fun i hi => h i (by omega)), h n (by omega)]

theorem readEach_getEntry (m : List (List FLOAT)) (r : Nat) (row : List FLOAT) (n : Nat)
    (hrow : m[r]? = some row) (hn : n ≤ row.length) :
    readEach n (fun i => getEntry m r i) = some (row.take n) := by
  rw [readEach_congr _ (fun i => row[i]?) n (fun i _ => by simp [getEntry, hrow])]
  exact readEach_getElem? row n hn

theorem toInt32_foldl {α : Type} : ∀ (lists : List (List α)) (c : Int), 0 ≤ c →
    c + ((lists.map List.length).sum : Nat) < 2147483648 →
    lists.foldl (fun synapse_count l => toInt32 (synapse_count + l.length)) c =
      c + ((lists.map List.length).sum : Nat) := by
  intro lists
  induction lists with
  | nil => intro c _ _; simp
  | cons l rest ih =>
    intro c hc hlt
    simp only [List.map_cons, List.sum_cons, Nat.cast_add] at hlt ⊢
    have h1 : toInt32 (c + l.length) = c + l.length := by
      unfold toInt32; omega
    rw [List.foldl_cons, h1, ih (c + l.length) (by omega) (by omega)]
    omega

/-- C12: when the neuron list and the array of synapse lists have `m_cNeurons` elements,
both histories have the row `m_si.currentStep` with `m_cNeurons` entries and the
number of synapses fits an `int`, `writeSimMemory` writes, in this order and nothing
else: `m_cNeurons`; the records of the neurons `0 .. m_cNeurons - 1`; the sum of the
sizes of the synapse lists; the records of the synapses by ascending neuron and,
within a neuron, ascending list position, as many as that sum; the `m_cNeurons` values
of row `m_si.currentStep` of the radius history; the `m_cNeurons` values of the same
row of the rate history. -/
theorem C12_writeSimMemory_layout (net : Network) (radiiHistory ratesHistory : List (List FLOAT))
    (radiiRow ratesRow : List FLOAT)
    (hneurons : net.m_cNeurons ≤ net.m_neuronList.length)
    (hlists : net.m_cNeurons ≤ net.m_rgSynapseMap.length)
    (hcount : (((net.m_rgSynapseMap.take net.m_cNeurons).map List.length).sum : Int) <
      2147483648)
    (hradii : radiiHistory[net.m_si.currentStep]? = some radiiRow)
    (hrates : ratesHistory[net.m_si.currentStep]? = some ratesRow)
    (hradiiRow : net.m_cNeurons ≤ radiiRow.length)
    (hratesRow : net.m_cNeurons ≤ ratesRow.length) :
    writeSimMemory net radiiHistory ratesHistory =
      some ([MemoryItem.int net.m_cNeurons] ++
        (net.m_neuronList.take net.m_cNeurons).map MemoryItem.neuronRecord ++
        [MemoryItem.int (((net.m_rgSynapseMap.take net.m_cNeurons).map List.length).sum : Nat)] ++
        (net.m_rgSynapseMap.take net.m_cNeurons).flatten.map MemoryItem.synapseRecord ++
        (radiiRow.take net.m_cNeurons).map MemoryItem.float ++
        (ratesRow.take net.m_cNeurons).map MemoryItem.float) ∧
    ((net.m_neuronList.take net.m_cNeurons).map MemoryItem.neuronRecord).length =
      net.m_cNeurons ∧
    ((net.m_rgSynapseMap.take net.m_cNeurons).flatten.map MemoryItem.synapseRecord).length =
      ((net.m_rgSynapseMap.take net.m_cNeurons).map List.length).sum ∧
    ((radiiRow.take net.m_cNeurons).map MemoryItem.float).length = net.m_cNeurons ∧
    ((ratesRow.take net.m_cNeurons).map MemoryItem.float).length = net.m_cNeurons := by
  refine ⟨?_, by simp [hneurons], by rw [List.length_map, List.length_flatten],
    by simp [hradiiRow], by simp [hratesRow]⟩
  unfold writeSimMemory
  simp only [readEach_getElem? _ _ hneurons, readEach_getElem? _ _ hlists,
    readEach_getEntry _ _ _ _ hradii hradiiRow, readEach_getEntry _ _ _ _ hrates hratesRow]
  rw [toInt32_foldl _ 0 (le_refl _) (by simpa using hcount)]
  simp

/-- An instance of C12: the 2 x 2 grid after epoch 1, one synapse in the list of
neuron 0. -/
theorem C12_writeSimMemory_layout_witness :
    (midRunNetwork 1).m_cNeurons ≤ (midRunNetwork 1).m_neuronList.length ∧
    writeSimMemory (midRunNetwork 1) sampleRadii sampleRates =
      some ([MemoryItem.int (midRunNetwork 1).m_cNeurons] ++
        ((midRunNetwork 1).m_neuronList.take (midRunNetwork 1).m_cNeurons).map
          MemoryItem.neuronRecord ++
        [MemoryItem.int ((((midRunNetwork 1).m_rgSynapseMap.take
          (midRunNetwork 1).m_cNeurons).map List.length).sum : Nat)] ++
        ((midRunNetwork 1).m_rgSynapseMap.take (midRunNetwork 1).m_cNeurons).flatten.map
          MemoryItem.synapseRecord ++
        (([5, 6, 7, 8] : List FLOAT).take (midRunNetwork 1).m_cNeurons).map MemoryItem.float ++
        (([1, 2, 3, 4] : List FLOAT).take (midRunNetwork 1).m_cNeurons).map MemoryItem.float) :=
  ⟨by decide,
   (C12_writeSimMemory_layout (midRunNetwork 1) sampleRadii sampleRates [5, 6, 7, 8]
     [1, 2, 3, 4] (by decide) (by decide) (by decide) rfl rfl (by decide) (by decide)).1⟩

/-- C13, at the input where the code departs from it: on the grid one neuron wide and
two high whose one starter is neuron 1 (`x = 0`, `y = 1`), `getStarterNeuronMatrix`
returns and the table it fills is `[2]`, the value of `x + y * m_height`, while the grid
index of the starter, `x + y * m_width`, is 1.  On the 2 x 2 grid with the starters 1
and 2 the table is `[2, 1]`: the two indices, in the order of the walk by columns. -/
theorem C13_starter_table_uses_height :
    tallNetwork.m_width = 1 ∧ tallNetwork.m_height = 2 ∧
    starterCount tallNetwork = tallNetwork.m_cStarterNeurons ∧
    starterIndices tallNetwork = [1] ∧
    getStarterNeuronMatrix tallNetwork [0] = Except.ok [2] ∧
    squareNetwork.m_width = 2 ∧ squareNetwork.m_height = 2 ∧
    starterIndices squareNetwork = [1, 2] ∧
    getStarterNeuronMatrix squareNetwork [0, 0] = Except.ok [2, 1] := by
  refine ⟨rfl, rfl, by decide, by decide, rfl, rfl, rfl, by decide, rfl⟩

theorem drawsBefore_succ (net : Network) (i : Nat)
    (hi : i < net.m_rgEndogenouslyActiveNeuronMap.length) :
    drawsBefore net (i + 1) = drawsBefore net i + 6 +
      (if net.m_rgEndogenouslyActiveNeuronMap[i]? = some true then 2 else 0) := by
  unfold drawsBefore
  rw [List.take_succ, List.getElem?_eq_getElem hi, List.count_append]
  cases h : net.m_rgEndogenouslyActiveNeuronMap[i] <;> simp <;> omega

theorem drawsBefore_length (net : Network) :
    drawsBefore net net.m_rgEndogenouslyActiveNeuronMap.length =
      6 * net.m_rgEndogenouslyActiveNeuronMap.length + 2 * starterCount net := by
  simp [drawsBefore, starterCount]

theorem initNeuronsBody_eq (ext : Externals) (toFLOAT : ℚ → FLOAT) (draws : Nat → ℚ)
    (rg : NeuronRanges) (net : Network) (m : Nat) (done : List Neuron)
    (hT : net.m_rgNeuronTypeMap.length = net.m_cNeurons)
    (hTsome : ∀ t, t ∈ net.m_rgNeuronTypeMap → t ≠ none)
    (hS : net.m_rgEndogenouslyActiveNeuronMap.length = net.m_cNeurons)
    (hL : net.m_neuronList.length = net.m_cNeurons)
    (hm : m < net.m_cNeurons) (hd : done.length = m) :
    initNeuronsBody ext toFLOAT draws rg
        { net with rngCount := net.rngCount + drawsBefore net m,
                   m_neuronList := done ++ net.m_neuronList.drop m } m =
      some { net with
        rngCount := net.rngCount + drawsBefore net (m + 1)
        m_neuronList := (done ++ [initializedNeuron ext toFLOAT draws rg net m]) ++
          net.m_neuronList.drop (m + 1) } := by
  have hmT : m < net.m_rgNeuronTypeMap.length := by omega
  have hmS : m < net.m_rgEndogenouslyActiveNeuronMap.length := by omega
  have hmL : m < net.m_neuronList.length := by omega
  have hread : (done ++ net.m_neuronList.drop m)[m]? = some net.m_neuronList[m] := by
    rw [List.getElem?_append_right (by omega), hd, Nat.sub_self, List.getElem?_drop]
    simp [List.getElem?_eq_getElem hmL]
  have hset : ∀ v, (done ++ net.m_neuronList.drop m).set m v =
      (done ++ [v]) ++ net.m_neuronList.drop (m + 1) := by
    intro v
    rw [set_append_drop _ _ _ _ hd hmL]; simp
  have htype : net.m_rgNeuronTypeMap[m] ≠ none := hTsome _ (List.getElem_mem hmT)
  rw [drawsBefore_succ net m hmS]
  unfold initNeuronsBody
  simp only [hread, List.getElem?_eq_getElem hmT, List.getElem?_eq_getElem hmS, hset]
  cases htv : net.m_rgNeuronTypeMap[m] with
  | none => exact absurd htv htype
  | some t =>
    cases t <;> cases hsv : net.m_rgEndogenouslyActiveNeuronMap[m] <;>
      simp [initializedNeuron, Neuron.setParams, List.getElem?_eq_getElem hmT,
        List.getElem?_eq_getElem hmS, htv, hsv, Nat.add_assoc]

theorem initNeuronsLoop_fold (ext : Externals) (toFLOAT : ℚ → FLOAT) (draws : Nat → ℚ)
    (rg : NeuronRanges) (net : Network)
    (hT : net.m_rgNeuronTypeMap.length = net.m_cNeurons)
    (hTsome : ∀ t, t ∈ net.m_rgNeuronTypeMap → t ≠ none)
    (hS : net.m_rgEndogenouslyActiveNeuronMap.length = net.m_cNeurons)
    (hL : net.m_neuronList.length = net.m_cNeurons) :
    ∀ m, m ≤ net.m_cNeurons →
      (List.range m).foldlM (initNeuronsBody ext toFLOAT draws rg) net =
        some { net with
          rngCount := net.rngCount + drawsBefore net m
          m_neuronList := (List.range m).map (initializedNeuron ext toFLOAT draws rg net) ++
            net.m_neuronList.drop m } := by
  intro m
  induction m with
  | zero => intro _; simp [drawsBefore]
  | succ m ih =>
    intro hm
    rw [List.range_succ, List.foldlM_append, ih (by omega)]
    simp only [List.foldlM_cons, List.foldlM_nil, Option.some_bind, Option.bind_eq_bind]
    rw [initNeuronsBody_eq ext toFLOAT draws rg net m _ hT hTsome hS hL (by omega) (by simp)]
    simp [List.map_append]

theorem getStarterNeuronMatrix_congr (a b : Network) (matrix : List FLOAT)
    (h1 : a.m_width = b.m_width) (h2 : a.m_height = b.m_height)
    (h3 : a.m_rgEndogenouslyActiveNeuronMap = b.m_rgEndogenouslyActiveNeuronMap)
    (h4 : a.m_cStarterNeurons = b.m_cStarterNeurons) :
    getStarterNeuronMatrix a matrix = getStarterNeuronMatrix b matrix := by
  have hc : getStarterNeuronMatrixCell a = getStarterNeuronMatrixCell b := by
    funext x state y
    simp only [getStarterNeuronMatrixCell, h1, h2, h3]
  simp only [getStarterNeuronMatrix, hc, h1, h2, h4]

theorem setAtInt_fold_length {α : Type} (x : α) : ∀ (layout : List Int) (v w : List α),
    layout.foldlM (fun m idx => setAtInt m idx x) v = some w → w.length = v.length := by
  intro layout
  induction layout with
  | nil => intro v w h; simp at h; rw [← h]
  | cons e rest ih =>
    intro v w h
    simp only [List.foldlM_cons, Option.bind_eq_bind] at h
    cases hs : setAtInt v e x with
    | none => rw [hs] at h; simp at h
    | some v1 =>
      rw [hs] at h
      simp only [Option.some_bind] at h
      have h1 := ih v1 w h
      unfold setAtInt setAt at hs
      split at hs
      · split at hs
        · simp only [Option.some.injEq] at hs
          rw [h1, ← hs, List.length_set]
        · cases hs
      · cases hs

theorem assignEach_copy (order : List neuronType) (tm0 : List (Option neuronType)) (n : Nat)
    (ho : order.length = n) (ht : tm0.length = n) :
    assignEach n (fun i => (order[i]?).map some) tm0 = some (order.map some) := by
  rw [assignEach_eq _ (fun i => some (order.getD i neuronType.EXC)) _ _ (by omega)]
  · simp only [ht.symm ▸ List.drop_length _, List.append_nil]
    congr 1
    apply List.ext_getElem
    · simp [ho]
    · intro i h1 h2
      simp at h1
      simp [List.getD_eq_getElem?_getD, List.getElem?_eq_getElem (show i < order.length by omega)]
  · intro i hi
    simp [List.getD_eq_getElem?_getD, List.getElem?_eq_getElem (show i < order.length by omega)]

theorem initNeuronsLoop_members (ext : Externals) (toFLOAT : ℚ → FLOAT) (draws : Nat → ℚ)
    (rg : NeuronRanges) (net : Network)
    (hT : net.m_rgNeuronTypeMap.length = net.m_cNeurons)
    (hTsome : ∀ t, t ∈ net.m_rgNeuronTypeMap → t ≠ none)
    (hS : net.m_rgEndogenouslyActiveNeuronMap.length = net.m_cNeurons)
    (hL : net.m_neuronList.length = net.m_cNeurons) :
    ∃ net3, initNeuronsLoop ext toFLOAT draws rg net = some net3 ∧
      net3.m_width = net.m_width ∧ net3.m_height = net.m_height ∧
      net3.m_cNeurons = net.m_cNeurons ∧
      net3.m_cStarterNeurons = net.m_cStarterNeurons ∧
      net3.m_rgEndogenouslyActiveNeuronMap = net.m_rgEndogenouslyActiveNeuronMap ∧
      net3.m_rgNeuronTypeMap = net.m_rgNeuronTypeMap ∧
      net3.rngCount = net.rngCount + (6 * net.m_cNeurons + 2 * starterCount net) ∧
      net3.m_neuronList.length = net.m_cNeurons ∧
      net3.m_fReadMemImage = net.m_fReadMemImage ∧
      net3.m_fWriteMemImage = net.m_fWriteMemImage := by
  have h := initNeuronsLoop_fold ext toFLOAT draws rg net hT hTsome hS hL _ (le_refl _)
  refine ⟨_, h, rfl, rfl, rfl, rfl, rfl, rfl, ?_, ?_, rfl, rfl⟩
  · have h1 := drawsBefore_length net
    rw [hS] at h1
    rw [h1]
  · simp [hL]

/-- What the member initialisers give the network, when they are defined: each count is
the `int` its product converts to, a negative one carried as 0. -/
theorem initialisers_eq (ext : Externals) (args : NetworkArgs) (si : SimulationInfo)
    (step count : Nat) (net0 : Network)
    (h : Network.initialisers ext args si step count = some net0) :
    args.cols * args.rows ≤ 2147483647 ∧
    ∃ cExc cInh cStart : Int,
      static_cast_int32 (ext.fmul ((args.rows * args.cols : Nat) : Int) args.excFrac) =
        some cExc ∧
      static_cast_int32 (ext.fmul ((args.rows * args.cols : Nat) : Int) args.inhFrac) =
        some cInh ∧
      static_cast_int32 (ext.fmul ((args.cols * args.rows : Nat) : Int) args.startFrac) =
        some cStart ∧
      net0 =
        { m_width := args.cols
          m_height := args.rows
          m_cNeurons := args.cols * args.rows
          m_cExcitoryNeurons := cExc.toNat
          m_cInhibitoryNeurons := cInh.toNat
          m_cStarterNeurons := cStart.toNat
          m_deltaT := args.new_deltaT
          m_rgSynapseMap := []
          m_summationMap := []
          m_rgNeuronTypeMap := []
          m_rgEndogenouslyActiveNeuronMap := []
          m_epsilon := args.new_epsilon
          m_beta := args.new_beta
          m_rho := args.new_rho
          m_targetRate := args.new_targetRate
          m_maxRate := args.new_maxRate
          m_minRadius := args.new_minRadius
          m_startRadius := args.new_startRadius
          m_fWriteMemImage := args.fWriteMemImage
          m_fReadMemImage := args.fReadMemImage
          m_fFixedLayout := args.fFixedLayout
          m_pEndogenouslyActiveNeuronLayout := args.pEndogenouslyActiveNeuronLayout
          m_pInhibitoryNeuronLayout := args.pInhibitoryNeuronLayout
          m_neuronList := []
          m_si := si
          g_simulationStep := step
          rngCount := count } := by
  unfold Network.initialisers at h
  by_cases hfit : args.cols ≤ 2147483647 ∧ args.rows ≤ 2147483647 ∧
      args.cols * args.rows ≤ 2147483647
  · rw [if_pos hfit] at h
    cases he : static_cast_int32 (ext.fmul ((args.rows * args.cols : Nat) : Int) args.excFrac) with
    | none => rw [he] at h; cases h
    | some cExc =>
      cases hi : static_cast_int32
          (ext.fmul ((args.rows * args.cols : Nat) : Int) args.inhFrac) with
      | none => rw [he, hi] at h; cases h
      | some cInh =>
        cases hs : static_cast_int32
            (ext.fmul ((args.cols * args.rows : Nat) : Int) args.startFrac) with
        | none => rw [he, hi, hs] at h; cases h
        | some cStart =>
          rw [he, hi, hs] at h
          simp only [Option.some.injEq] at h
          exact ⟨hfit.2.2, cExc, cInh, cStart, rfl, rfl, rfl, h.symm⟩
  · rw [if_neg hfit] at h
    cases h

/-- The network the constructor builds in fixed-layout mode. -/
theorem construct_fixed_layout (ext : Externals) (toFLOAT : ℚ → FLOAT) (draws : Nat → ℚ)
    (fuel : Nat) (args : NetworkArgs) (si : SimulationInfo) (step count : Nat)
    (net0 : Network) (tm : List neuronType) (sm : List Bool)
    (hinit : Network.initialisers ext args si step count = some net0)
    (hfix : args.fFixedLayout = true)
    (htm : args.pInhibitoryNeuronLayout.foldlM (fun v idx => setAtInt v idx neuronType.INH)
      (List.replicate (args.cols * args.rows) neuronType.EXC) = some tm)
    (hsm : args.pEndogenouslyActiveNeuronLayout.foldlM (fun m idx => setAtInt m idx true)
      (List.replicate (args.cols * args.rows) false) = some sm) :
    ∃ net, Network.construct ext toFLOAT draws fuel args si step count = Outcome.done net ∧
      net.m_width = args.cols ∧ net.m_height = args.rows ∧
      net.m_cNeurons = args.cols * args.rows ∧
      net.m_cStarterNeurons = net0.m_cStarterNeurons ∧
      net.m_rgEndogenouslyActiveNeuronMap = sm ∧
      net.m_rgNeuronTypeMap = tm.map some ∧
      net.rngCount = count + (6 * (args.cols * args.rows) + 2 * sm.count true) ∧
      net.m_neuronList.length = args.cols * args.rows ∧
      net.m_fReadMemImage = args.fReadMemImage ∧
      net.m_fWriteMemImage = args.fWriteMemImage := by
  have htl : tm.length = args.cols * args.rows := by
    rw [setAtInt_fold_length _ _ _ _ htm]; simp
  have hsl : sm.length = args.cols * args.rows := by
    rw [setAtInt_fold_length _ _ _ _ hsm]; simp
  obtain ⟨_, cExc, cInh, cStart, _, _, _, hnet⟩ := initialisers_eq ext args si step count net0 hinit
  have h1 : initNeuronTypeMap draws (reset ext net0) =
      some { reset ext net0 with m_rgNeuronTypeMap := tm.map some } := by
    subst hnet
    simp only [initNeuronTypeMap, getNeuronOrder, reset, freeResources,
      hfix, if_true, htm]
    rw [assignEach_copy tm _ _ htl (by simp)]
  have h2 : initStarterMap draws fuel
      { reset ext net0 with m_rgNeuronTypeMap := tm.map some } =
      Outcome.done { reset ext net0 with
        m_rgNeuronTypeMap := tm.map some, m_rgEndogenouslyActiveNeuronMap := sm } := by
    subst hnet
    simp only [initStarterMap, reset, freeResources, hfix, if_true, hsm]
  obtain ⟨net3, h3, g1, g2, g3, g4, g5, g6, g7, g8, g9, g10⟩ := initNeuronsLoop_members ext
    toFLOAT draws
    args.ranges
    { reset ext net0 with
      m_rgNeuronTypeMap := tm.map some, m_rgEndogenouslyActiveNeuronMap := sm }
    (by subst hnet; simp [reset, freeResources, htl])
    (by simp [reset, freeResources])
    (by subst hnet; simp [reset, freeResources, hsl])
    (by subst hnet; simp [reset, freeResources])
  refine ⟨net3, ?_, ?_, ?_, ?_, g4, g5, g6, ?_, ?_, ?_, ?_⟩
  · simp only [Network.construct, hinit, initNeurons, h1, h2, h3]
  · rw [g1]; subst hnet; rfl
  · rw [g2]; subst hnet; rfl
  · rw [g3]; subst hnet; rfl
  · rw [g7]; subst hnet; rfl
  · rw [g8]; subst hnet; rfl
  · rw [g9]; subst hnet; rfl
  · rw [g10]; subst hnet; rfl

/-- The member initialisers for `fixedArgs`: two neurons and a starter count of 1. -/
theorem initialisers_fixedArgs (starters inhibitory : List Int) :
    ∃ net0, Network.initialisers ext0 (fixedArgs starters inhibitory) si0 0 0 = some net0 ∧
      net0.m_cStarterNeurons = 1 := by
  have x1 : static_cast_int32 (ext0.fmul ((1 * 2 : Nat) : Int) 1) = some 2 := by
    simp [static_cast_int32, static_cast_int, ext0]
  have x2 : static_cast_int32 (ext0.fmul ((1 * 2 : Nat) : Int) 0) = some 0 := by
    simp [static_cast_int32, static_cast_int, ext0]
  have x3 : static_cast_int32 (ext0.fmul ((2 * 1 : Nat) : Int) (1 / 2)) = some 1 := by
    simp [static_cast_int32, static_cast_int, ext0]
  unfold Network.initialisers
  have hfit : (fixedArgs starters inhibitory).cols ≤ 2147483647 ∧
      (fixedArgs starters inhibitory).rows ≤ 2147483647 ∧
      (fixedArgs starters inhibitory).cols * (fixedArgs starters inhibitory).rows ≤
        2147483647 := by
    refine ⟨?_, ?_, ?_⟩ <;> (show (_ : Nat) ≤ 2147483647) <;> norm_num [fixedArgs]
  rw [if_pos hfit]
  have e1 : static_cast_int32 (ext0.fmul (((fixedArgs starters inhibitory).rows *
      (fixedArgs starters inhibitory).cols : Nat) : Int)
      (fixedArgs starters inhibitory).excFrac) = some 2 := x1
  have e2 : static_cast_int32 (ext0.fmul (((fixedArgs starters inhibitory).rows *
      (fixedArgs starters inhibitory).cols : Nat) : Int)
      (fixedArgs starters inhibitory).inhFrac) = some 0 := x2
  have e3 : static_cast_int32 (ext0.fmul (((fixedArgs starters inhibitory).cols *
      (fixedArgs starters inhibitory).rows : Nat) : Int)
      (fixedArgs starters inhibitory).startFrac) = some 1 := x3
  rw [e1, e2, e3]
  exact ⟨_, rfl, rfl⟩

/-- C15, at two inputs where the code departs from it.  The constructor, called in
fixed-layout mode for a grid of two neurons with the starter fraction `1/2` (a starter
count of 1) and the starter layout `[0, 1]`, returns a network with two neurons
flagged; `getStarterNeuronMatrix` then writes past the end of the table of one entry.
With the empty starter layout no neuron is flagged and the assertion
`cur == m_cStarterNeurons` fails.  In both cases `saveSimState` does not complete: the
run ends in it with that fault. -/
theorem C15_fixed_layout_starter_count_mismatch :
    (∃ net, Network.construct ext0 floorFLOAT zeroDraws 0 (fixedArgs [0, 1] []) si0 0 0 =
        Outcome.done net ∧
      net.m_cStarterNeurons = 1 ∧ starterCount net = 2 ∧
      getStarterNeuronMatrix net (List.replicate net.m_cStarterNeurons ext0.matrixInit) =
        Except.error TableFault.writePastEnd ∧
      (saveSimState ext0 net [] [] [] [] [] [] [] 0 []).2 = some TableFault.writePastEnd) ∧
    (∃ net, Network.construct ext0 floorFLOAT zeroDraws 0 (fixedArgs [] []) si0 0 0 =
        Outcome.done net ∧
      net.m_cStarterNeurons = 1 ∧ starterCount net = 0 ∧
      getStarterNeuronMatrix net (List.replicate net.m_cStarterNeurons ext0.matrixInit) =
        Except.error TableFault.assertionFailed ∧
      (saveSimState ext0 net [] [] [] [] [] [] [] 0 []).2 =
        some TableFault.assertionFailed) := by
  constructor
  · obtain ⟨net0, hinit, hone⟩ := initialisers_fixedArgs [0, 1] []
    obtain ⟨net, hc, hw, hh, _, hcnt, hmap, _, _⟩ := construct_fixed_layout ext0 floorFLOAT
      zeroDraws 0 (fixedArgs [0, 1] []) si0 0 0 net0 [neuronType.EXC, neuronType.EXC]
      [true, true] hinit rfl rfl rfl
    rw [hone] at hcnt
    have hfault : getStarterNeuronMatrix net (List.replicate net.m_cStarterNeurons
        ext0.matrixInit) = Except.error TableFault.writePastEnd := by
      rw [getStarterNeuronMatrix_congr net overfullNetwork _ hw hh hmap hcnt, hcnt]
      rfl
    refine ⟨net, hc, hcnt, by rw [starterCount, hmap]; rfl, hfault, ?_⟩
    simp only [saveSimState, hcnt, Nat.lt_one_iff, Nat.zero_lt_one, if_true]
    rw [hcnt] at hfault
    rw [hfault]
  · obtain ⟨net0, hinit, hone⟩ := initialisers_fixedArgs [] []
    obtain ⟨net, hc, hw, hh, _, hcnt, hmap, _, _⟩ := construct_fixed_layout ext0 floorFLOAT
      zeroDraws 0 (fixedArgs [] []) si0 0 0 net0 [neuronType.EXC, neuronType.EXC]
      [false, false] hinit rfl rfl rfl
    rw [hone] at hcnt
    have hfault : getStarterNeuronMatrix net (List.replicate net.m_cStarterNeurons
        ext0.matrixInit) = Except.error TableFault.assertionFailed := by
      rw [getStarterNeuronMatrix_congr net unflaggedNetwork _ hw hh hmap hcnt, hcnt]
      rfl
    refine ⟨net, hc, hcnt, by rw [starterCount, hmap]; rfl, hfault, ?_⟩
    simp only [saveSimState, hcnt, Nat.lt_one_iff, Nat.zero_lt_one, if_true]
    rw [hcnt] at hfault
    rw [hfault]

/-- In random mode the loop of `initStarterMap`, when it ends, leaves as many neurons
flagged as `m_cStarterNeurons` says. -/
theorem initStarterMapLoop_done_count (draws : Nat → ℚ) :
    ∀ (fuel : Nat) (net : Network) (a : Nat) (net1 : Network),
      starterCount net = a → a ≤ net.m_cStarterNeurons →
      initStarterMapLoop draws fuel net a = Outcome.done net1 →
      starterCount net1 = net1.m_cStarterNeurons := by
  intro fuel
  induction fuel with
  | zero =>
    intro net a net1 hc ha h
    by_cases hlt : a < net.m_cStarterNeurons
    · simp [initStarterMapLoop, hlt] at h
    · simp only [initStarterMapLoop, hlt, if_false, Outcome.done.injEq] at h
      subst h
      omega
  | succ fuel ih =>
    intro net a net1 hc ha h
    by_cases hlt : a < net.m_cStarterNeurons
    · rw [initStarterMapLoop] at h
      simp only [hlt, if_true] at h
      cases hT : getAtInt net.m_rgNeuronTypeMap
          (static_cast_int (inRange draws net.rngCount 0 net.m_cNeurons)) with
      | none => rw [hT] at h; cases h
      | some t =>
        rw [hT] at h
        by_cases ht : t = some neuronType.EXC
        · simp only [ht, if_true] at h
          cases hM : getAtInt net.m_rgEndogenouslyActiveNeuronMap
              (static_cast_int (inRange draws net.rngCount 0 net.m_cNeurons)) with
          | none => rw [hM] at h; cases h
          | some b =>
            rw [hM] at h
            cases b with
            | true => exact ih { net with rngCount := net.rngCount + 1 } a net1 hc ha h
            | false =>
              have hi0 : 0 ≤ static_cast_int (inRange draws net.rngCount 0 net.m_cNeurons) := by
                by_contra hneg
                simp [getAtInt, hneg] at hM
              simp only [getAtInt, hi0, if_true] at hM
              refine ih { net with rngCount := net.rngCount + 1,
                                   m_rgEndogenouslyActiveNeuronMap :=
                                     net.m_rgEndogenouslyActiveNeuronMap.set
                                       (static_cast_int (inRange draws net.rngCount 0
                                         net.m_cNeurons)).toNat true }
                (a + 1) net1 ?_ ?_ h
              · show List.count true _ = a + 1
                rw [count_set_true _ _ hM]
                exact congrArg (· + 1) hc
              · show a + 1 ≤ net.m_cStarterNeurons
                omega
        · simp only [ht, if_false] at h
          exact ih { net with rngCount := net.rngCount + 1 } a net1 hc ha h
    · rw [initStarterMapLoop] at h
      simp only [hlt, if_false, Outcome.done.injEq] at h
      subst h
      omega

theorem initNeuronsBody_members (ext : Externals) (toFLOAT : ℚ → FLOAT) (draws : Nat → ℚ)
    (rg : NeuronRanges) (net net1 : Network) (i : Nat)
    (h : initNeuronsBody ext toFLOAT draws rg net i = some net1) :
    net1.m_rgEndogenouslyActiveNeuronMap = net.m_rgEndogenouslyActiveNeuronMap ∧
      net1.m_cStarterNeurons = net.m_cStarterNeurons := by
  unfold initNeuronsBody at h
  simp only at h
  (repeat' split at h) <;> cases h <;> exact ⟨rfl, rfl⟩

theorem initNeuronsBody_foldlM_members (ext : Externals) (toFLOAT : ℚ → FLOAT)
    (draws : Nat → ℚ) (rg : NeuronRanges) :
    ∀ (l : List Nat) (net net1 : Network),
      l.foldlM (initNeuronsBody ext toFLOAT draws rg) net = some net1 →
      net1.m_rgEndogenouslyActiveNeuronMap = net.m_rgEndogenouslyActiveNeuronMap ∧
        net1.m_cStarterNeurons = net.m_cStarterNeurons := by
  intro l
  induction l with
  | nil =>
    intro net net1 h
    simp at h
    subst h
    exact ⟨rfl, rfl⟩
  | cons i rest ih =>
    intro net net1 h
    simp only [List.foldlM_cons, Option.bind_eq_bind] at h
    cases hb : initNeuronsBody ext toFLOAT draws rg net i with
    | none => rw [hb] at h; simp at h
    | some net2 =>
      rw [hb] at h
      simp only [Option.some_bind] at h
      obtain ⟨h1, h2⟩ := ih net2 net1 h
      obtain ⟨h3, h4⟩ := initNeuronsBody_members ext toFLOAT draws rg net net2 i hb
      exact ⟨h1.trans h3, h2.trans h4⟩

theorem getNeuronOrder_members (draws : Nat → ℚ) (net net1 : Network) (v : List neuronType)
    (h : getNeuronOrder draws net = some (v, net1)) :
    net1.m_rgEndogenouslyActiveNeuronMap = net.m_rgEndogenouslyActiveNeuronMap ∧
      net1.m_cStarterNeurons = net.m_cStarterNeurons ∧
      net1.m_fFixedLayout = net.m_fFixedLayout ∧
      net1.m_cNeurons = net.m_cNeurons := by
  unfold getNeuronOrder at h
  by_cases hfix : net.m_fFixedLayout = true
  · simp only [hfix, if_true] at h
    cases hf : net.m_pInhibitoryNeuronLayout.foldlM
        (fun v idx => setAtInt v idx neuronType.INH)
        (List.replicate net.m_cNeurons neuronType.EXC) with
    | none => rw [hf] at h; cases h
    | some w =>
      rw [hf] at h
      simp only [Option.some.injEq, Prod.mk.injEq] at h
      obtain ⟨_, rfl⟩ := h
      exact ⟨rfl, rfl, rfl, rfl⟩
  · simp only [hfix, if_false] at h
    cases hf : (List.range net.m_cInhibitoryNeurons).foldlM
        (fun v i => setAt v i neuronType.INH)
        (List.replicate net.m_cNeurons neuronType.EXC) with
    | none => rw [hf] at h; cases h
    | some ordered =>
      rw [hf] at h
      simp only at h
      cases hs : shuffleLoop draws ordered [] net.rngCount with
      | none => rw [hs] at h; cases h
      | some p =>
        obtain ⟨w, c⟩ := p
        rw [hs] at h
        simp only [Option.some.injEq, Prod.mk.injEq] at h
        obtain ⟨_, rfl⟩ := h
        exact ⟨rfl, rfl, by simp [hfix], rfl⟩

theorem initNeuronTypeMap_members (draws : Nat → ℚ) (net net1 : Network)
    (h : initNeuronTypeMap draws net = some net1) :
    net1.m_rgEndogenouslyActiveNeuronMap = net.m_rgEndogenouslyActiveNeuronMap ∧
      net1.m_cStarterNeurons = net.m_cStarterNeurons ∧
      net1.m_fFixedLayout = net.m_fFixedLayout := by
  unfold initNeuronTypeMap at h
  cases hg : getNeuronOrder draws net with
  | none => rw [hg] at h; cases h
  | some p =>
    obtain ⟨order, net2⟩ := p
    rw [hg] at h
    simp only at h
    obtain ⟨g1, g2, g3, _⟩ := getNeuronOrder_members draws net net2 order hg
    cases ha : assignEach net2.m_cNeurons (fun i => (order[i]?).map some)
        net2.m_rgNeuronTypeMap with
    | none => rw [ha] at h; cases h
    | some tm =>
      rw [ha] at h
      simp only [Option.some.injEq] at h
      subst h
      exact ⟨g1, g2, g3⟩

/-- In random mode every network the constructor returns has exactly
`m_cStarterNeurons` neurons flagged. -/
theorem construct_random_starter_count (ext : Externals) (toFLOAT : ℚ → FLOAT)
    (draws : Nat → ℚ) (fuel : Nat) (args : NetworkArgs) (si : SimulationInfo)
    (step count : Nat) (net : Network) (hmode : args.fFixedLayout = false)
    (h : Network.construct ext toFLOAT draws fuel args si step count = Outcome.done net) :
    starterCount net = net.m_cStarterNeurons := by
  unfold Network.construct at h
  cases hinit : Network.initialisers ext args si step count with
  | none => rw [hinit] at h; cases h
  | some net0 =>
  rw [hinit] at h
  simp only at h
  obtain ⟨_, cExc, cInh, cStart, _, _, _, hnet⟩ := initialisers_eq ext args si step count net0
    hinit
  have hmode0 : net0.m_fFixedLayout = false := by rw [hnet]; exact hmode
  unfold initNeurons at h
  cases h1 : initNeuronTypeMap draws (reset ext net0) with
  | none => rw [h1] at h; cases h
  | some net1 =>
    rw [h1] at h
    simp only at h
    obtain ⟨m1, _, f1⟩ := initNeuronTypeMap_members draws _ net1 h1
    have hf : net1.m_fFixedLayout = false := by rw [f1]; exact hmode0
    have hc : starterCount net1 = 0 := by
      rw [starterCount, m1]
      simp [reset, freeResources, List.count_replicate]
    cases h2 : initStarterMap draws fuel net1 with
    | outOfFuel => rw [h2] at h; cases h
    | undefined => rw [h2] at h; cases h
    | done net2 =>
      rw [h2] at h
      simp only at h
      have hcount : starterCount net2 = net2.m_cStarterNeurons := by
        simp only [initStarterMap, hf, Bool.false_eq_true, if_false] at h2
        exact initStarterMapLoop_done_count draws fuel net1 0 net2 hc (Nat.zero_le _) h2
      cases h3 : initNeuronsLoop ext toFLOAT draws args.ranges net2 with
      | none => rw [h3] at h; cases h
      | some net3 =>
        rw [h3] at h
        simp only [Outcome.done.injEq] at h
        subst h
        obtain ⟨g1, g2⟩ := initNeuronsBody_foldlM_members ext toFLOAT draws args.ranges _ _ _ h3
        rw [starterCount, g1, g2]
        exact hcount

theorem count_true_eq_sum : ∀ l : List Bool,
    l.count true =
      Finset.sum (Finset.range l.length) (fun i => if l[i]? = some true then 1 else 0) := by
  intro l
  induction l with
  | nil => simp
  | cons b rest ih =>
    rw [List.length_cons, Finset.sum_range_succ', List.count_cons, ih]
    cases b <;> simp

theorem sum_grid (f : Nat → Nat) (w : Nat) : ∀ h,
    Finset.sum (Finset.range (w * h)) f =
      Finset.sum (Finset.range w)
        (fun x => Finset.sum (Finset.range h) (fun y => f (x + y * w))) := by
  intro h
  induction h with
  | zero => simp
  | succ h ih =>
    rw [Nat.mul_succ, Finset.sum_range_add, ih]
    simp only [Finset.sum_range_succ, Finset.sum_add_distrib]
    congr 1
    apply Finset.sum_congr rfl
    intro x _
    rw [Nat.add_comm, Nat.mul_comm]

theorem flaggedInColumns_eq_starterCount (net : Network)
    (hlen : net.m_rgEndogenouslyActiveNeuronMap.length = net.m_width * net.m_height) :
    flaggedInColumns net net.m_width = starterCount net := by
  unfold flaggedInColumns flaggedInColumn starterCount
  rw [← sum_grid (flagAt net) net.m_width net.m_height, count_true_eq_sum, hlen]
  rfl

/-- The inner loop of `getStarterNeuronMatrix` for column `x`, as long as the table has
room. -/
theorem getStarterNeuronMatrixCell_fold (net : Network) (x : Nat) (hx : x < net.m_width)
    (hlen : net.m_rgEndogenouslyActiveNeuronMap.length = net.m_width * net.m_height) :
    ∀ k, k ≤ net.m_height → ∀ (m : List FLOAT) (cur : Nat),
      cur + flaggedInColumn net x k ≤ m.length →
      ∃ m1, (List.range k).foldlM (getStarterNeuronMatrixCell net x) (m, cur) =
          Except.ok (m1, cur + flaggedInColumn net x k) ∧ m1.length = m.length := by
  intro k
  induction k with
  | zero =>
    intro _ m cur _
    exact ⟨m, by simp [flaggedInColumn, pure, Except.pure], rfl⟩
  | succ k ih =>
    intro hk m cur hroom
    have hstep : flaggedInColumn net x (k + 1) =
        flaggedInColumn net x k + flagAt net (x + k * net.m_width) := by
      simp [flaggedInColumn, Finset.sum_range_succ]
    rw [hstep] at hroom ⊢
    obtain ⟨m1, hfold, hm1⟩ := ih (by omega) m cur (by omega)
    have hidx : x + k * net.m_width < net.m_rgEndogenouslyActiveNeuronMap.length := by
      rw [hlen]
      calc x + k * net.m_width < net.m_width + k * net.m_width := by omega
        _ = net.m_width * (k + 1) := by rw [Nat.mul_succ, Nat.mul_comm]; omega
        _ ≤ net.m_width * net.m_height := Nat.mul_le_mul_left _ hk
    rw [List.range_succ, List.foldlM_append, hfold]
    simp only [bind, Except.bind, List.foldlM_cons, List.foldlM_nil]
    cases hb : net.m_rgEndogenouslyActiveNeuronMap[x + k * net.m_width] with
    | false =>
      refine ⟨m1, ?_, hm1⟩
      simp [getStarterNeuronMatrixCell, List.getElem?_eq_getElem hidx, hb, flagAt, pure,
        Except.pure]
    | true =>
      have hflag : flagAt net (x + k * net.m_width) = 1 := by
        simp [flagAt, List.getElem?_eq_getElem hidx, hb]
      rw [hflag] at hroom ⊢
      refine ⟨m1.set (cur + flaggedInColumn net x k)
        ((x + k * net.m_height : Nat) : Int), ?_, by simp [hm1]⟩
      simp [getStarterNeuronMatrixCell, List.getElem?_eq_getElem hidx, hb, setAt, pure,
        Except.pure, show cur + flaggedInColumn net x k < m1.length by omega, Nat.add_assoc]

/-- The outer loop of `getStarterNeuronMatrix`, as long as the table has room. -/
theorem getStarterNeuronMatrix_fold (net : Network)
    (hlen : net.m_rgEndogenouslyActiveNeuronMap.length = net.m_width * net.m_height) :
    ∀ j, j ≤ net.m_width → ∀ (m : List FLOAT),
      flaggedInColumns net j ≤ m.length →
      ∃ m1, (List.range j).foldlM
          (fun state x => (List.range net.m_height).foldlM
            (getStarterNeuronMatrixCell net x) state) (m, 0) =
          Except.ok (m1, flaggedInColumns net j) ∧ m1.length = m.length := by
  intro j
  induction j with
  | zero =>
    intro _ m _
    exact ⟨m, by simp [flaggedInColumns, pure, Except.pure], rfl⟩
  | succ j ih =>
    intro hj m hroom
    have hstep : flaggedInColumns net (j + 1) =
        flaggedInColumns net j + flaggedInColumn net j net.m_height := by
      simp [flaggedInColumns, Finset.sum_range_succ]
    rw [hstep] at hroom ⊢
    obtain ⟨m1, hfold, hm1⟩ := ih (by omega) m (by omega)
    obtain ⟨m2, hcol, hm2⟩ := getStarterNeuronMatrixCell_fold net j (by omega) hlen
      net.m_height (le_refl _) m1 (flaggedInColumns net j) (by omega)
    rw [List.range_succ, List.foldlM_append, hfold]
    simp only [bind, Except.bind, List.foldlM_cons, List.foldlM_nil]
    refine ⟨m2, ?_, by omega⟩
    rw [hcol]
    rfl

/-- For a grid whose starter map has `m_width * m_height` elements of which exactly
`m_cStarterNeurons` are set, `getStarterNeuronMatrix` returns: no write goes past the
end of a table of `m_cStarterNeurons` entries and the assertion holds. -/
theorem getStarterNeuronMatrix_returns (net : Network) (c : FLOAT)
    (hlen : net.m_rgEndogenouslyActiveNeuronMap.length = net.m_width * net.m_height)
    (hcount : starterCount net = net.m_cStarterNeurons) :
    ∃ table, getStarterNeuronMatrix net (List.replicate net.m_cStarterNeurons c) =
      Except.ok table ∧ table.length = net.m_cStarterNeurons := by
  have htotal := flaggedInColumns_eq_starterCount net hlen
  obtain ⟨m1, hfold, hm1⟩ := getStarterNeuronMatrix_fold net hlen net.m_width (le_refl _)
    (List.replicate net.m_cStarterNeurons c) (by simp; omega)
  refine ⟨m1, ?_, by simpa using hm1⟩
  simp only [getStarterNeuronMatrix, hfold]
  simp [htotal, hcount]

theorem sameGrid_refl (a : Network) : sameGrid a a := ⟨rfl, rfl, rfl, rfl⟩

theorem sameGrid_trans {a b c : Network} (h1 : sameGrid a b) (h2 : sameGrid b c) :
    sameGrid a c :=
  ⟨h2.1.trans h1.1, h2.2.1.trans h1.2.1, h2.2.2.1.trans h1.2.2.1, h2.2.2.2.trans h1.2.2.2⟩

theorem initStarterMapLoop_sameGrid (draws : Nat → ℚ) :
    ∀ (fuel : Nat) (net : Network) (a : Nat) (net1 : Network),
      initStarterMapLoop draws fuel net a = Outcome.done net1 → sameGrid net net1 := by
  intro fuel
  induction fuel with
  | zero =>
    intro net a net1 h
    by_cases hlt : a < net.m_cStarterNeurons
    · simp [initStarterMapLoop, hlt] at h
    · simp only [initStarterMapLoop, hlt, if_false, Outcome.done.injEq] at h
      subst h
      exact sameGrid_refl _
  | succ fuel ih =>
    intro net a net1 h
    by_cases hlt : a < net.m_cStarterNeurons
    · rw [initStarterMapLoop] at h
      simp only [hlt, if_true] at h
      cases hT : getAtInt net.m_rgNeuronTypeMap
          (static_cast_int (inRange draws net.rngCount 0 net.m_cNeurons)) with
      | none => rw [hT] at h; cases h
      | some t =>
        rw [hT] at h
        by_cases ht : t = some neuronType.EXC
        · simp only [ht, if_true] at h
          cases hM : getAtInt net.m_rgEndogenouslyActiveNeuronMap
              (static_cast_int (inRange draws net.rngCount 0 net.m_cNeurons)) with
          | none => rw [hM] at h; cases h
          | some b =>
            rw [hM] at h
            cases b with
            | true =>
              have g := ih { net with rngCount := net.rngCount + 1 } a net1 h
              refine sameGrid_trans ?_ g
              exact ⟨rfl, rfl, rfl, rfl⟩
            | false =>
              have g := ih { net with rngCount := net.rngCount + 1,
                                      m_rgEndogenouslyActiveNeuronMap :=
                                        net.m_rgEndogenouslyActiveNeuronMap.set
                                          (static_cast_int (inRange draws net.rngCount 0
                                            net.m_cNeurons)).toNat true }
                (a + 1) net1 h
              refine sameGrid_trans ?_ g
              exact ⟨rfl, rfl, rfl, by simp⟩
        · simp only [ht, if_false] at h
          have g := ih { net with rngCount := net.rngCount + 1 } a net1 h
          refine sameGrid_trans ?_ g
          exact ⟨rfl, rfl, rfl, rfl⟩
    · rw [initStarterMapLoop] at h
      simp only [hlt, if_false, Outcome.done.injEq] at h
      subst h
      exact sameGrid_refl _

theorem initNeuronsBody_sameGrid (ext : Externals) (toFLOAT : ℚ → FLOAT) (draws : Nat → ℚ)
    (rg : NeuronRanges) (net net1 : Network) (i : Nat)
    (h : initNeuronsBody ext toFLOAT draws rg net i = some net1) : sameGrid net net1 := by
  unfold initNeuronsBody at h
  simp only at h
  (repeat' split at h) <;> cases h <;> exact ⟨rfl, rfl, rfl, rfl⟩

theorem initNeuronsBody_foldlM_sameGrid (ext : Externals) (toFLOAT : ℚ → FLOAT)
    (draws : Nat → ℚ) (rg : NeuronRanges) :
    ∀ (l : List Nat) (net net1 : Network),
      l.foldlM (initNeuronsBody ext toFLOAT draws rg) net = some net1 → sameGrid net net1 := by
  intro l
  induction l with
  | nil =>
    intro net net1 h
    simp at h
    subst h
    exact sameGrid_refl _
  | cons i rest ih =>
    intro net net1 h
    simp only [List.foldlM_cons, Option.bind_eq_bind] at h
    cases hb : initNeuronsBody ext toFLOAT draws rg net i with
    | none => rw [hb] at h; simp at h
    | some net2 =>
      rw [hb] at h
      simp only [Option.some_bind] at h
      exact sameGrid_trans (initNeuronsBody_sameGrid ext toFLOAT draws rg net net2 i hb)
        (ih net2 net1 h)

theorem getNeuronOrder_sameGrid (draws : Nat → ℚ) (net net1 : Network) (v : List neuronType)
    (h : getNeuronOrder draws net = some (v, net1)) : sameGrid net net1 := by
  unfold getNeuronOrder at h
  by_cases hfix : net.m_fFixedLayout = true
  · simp only [hfix, if_true] at h
    cases hf : net.m_pInhibitoryNeuronLayout.foldlM
        (fun v idx => setAtInt v idx neuronType.INH)
        (List.replicate net.m_cNeurons neuronType.EXC) with
    | none => rw [hf] at h; cases h
    | some w =>
      rw [hf] at h
      simp only [Option.some.injEq, Prod.mk.injEq] at h
      obtain ⟨_, rfl⟩ := h
      exact sameGrid_refl _
  · simp only [hfix, if_false] at h
    cases hf : (List.range net.m_cInhibitoryNeurons).foldlM
        (fun v i => setAt v i neuronType.INH)
        (List.replicate net.m_cNeurons neuronType.EXC) with
    | none => rw [hf] at h; cases h
    | some ordered =>
      rw [hf] at h
      simp only at h
      cases hs : shuffleLoop draws ordered [] net.rngCount with
      | none => rw [hs] at h; cases h
      | some p =>
        obtain ⟨w, c⟩ := p
        rw [hs] at h
        simp only [Option.some.injEq, Prod.mk.injEq] at h
        obtain ⟨_, rfl⟩ := h
        exact ⟨rfl, rfl, rfl, rfl⟩

theorem initNeuronTypeMap_sameGrid (draws : Nat → ℚ) (net net1 : Network)
    (h : initNeuronTypeMap draws net = some net1) : sameGrid net net1 := by
  unfold initNeuronTypeMap at h
  cases hg : getNeuronOrder draws net with
  | none => rw [hg] at h; cases h
  | some p =>
    obtain ⟨order, net2⟩ := p
    rw [hg] at h
    simp only at h
    have g := getNeuronOrder_sameGrid draws net net2 order hg
    cases ha : assignEach net2.m_cNeurons (fun i => (order[i]?).map some)
        net2.m_rgNeuronTypeMap with
    | none => rw [ha] at h; cases h
    | some tm =>
      rw [ha] at h
      simp only [Option.some.injEq] at h
      subst h
      exact g

/-- In random mode, for every network the constructor returns, `getStarterNeuronMatrix`
returns on the table `saveSimState` gives it: the assertion holds and no write goes
past the end. -/
theorem construct_random_starter_table (ext : Externals) (toFLOAT : ℚ → FLOAT)
    (draws : Nat → ℚ) (fuel : Nat) (args : NetworkArgs) (si : SimulationInfo)
    (step count : Nat) (net : Network) (c : FLOAT) (hmode : args.fFixedLayout = false)
    (h : Network.construct ext toFLOAT draws fuel args si step count = Outcome.done net) :
    ∃ table, getStarterNeuronMatrix net (List.replicate net.m_cStarterNeurons c) =
      Except.ok table ∧ table.length = net.m_cStarterNeurons := by
  have hcount := construct_random_starter_count ext toFLOAT draws fuel args si step count net
    hmode h
  unfold Network.construct at h
  cases hinit : Network.initialisers ext args si step count with
  | none => rw [hinit] at h; cases h
  | some net0 =>
  rw [hinit] at h
  simp only at h
  obtain ⟨_, cExc, cInh, cStart, _, _, _, hnet⟩ := initialisers_eq ext args si step count net0
    hinit
  have hmode0 : net0.m_fFixedLayout = false := by rw [hnet]; exact hmode
  have hgrid : sameGrid (reset ext net0) net := by
    unfold initNeurons at h
    cases h1 : initNeuronTypeMap draws (reset ext net0) with
    | none => rw [h1] at h; cases h
    | some net1 =>
      rw [h1] at h
      simp only at h
      have g1 := initNeuronTypeMap_sameGrid draws _ net1 h1
      obtain ⟨_, _, f1⟩ := initNeuronTypeMap_members draws _ net1 h1
      have hf : net1.m_fFixedLayout = false := by rw [f1]; exact hmode0
      cases h2 : initStarterMap draws fuel net1 with
      | outOfFuel => rw [h2] at h; cases h
      | undefined => rw [h2] at h; cases h
      | done net2 =>
        rw [h2] at h
        simp only at h
        simp only [initStarterMap, hf, Bool.false_eq_true, if_false] at h2
        have g2 := initStarterMapLoop_sameGrid draws fuel net1 0 net2 h2
        cases h3 : initNeuronsLoop ext toFLOAT draws args.ranges net2 with
        | none => rw [h3] at h; cases h
        | some net3 =>
          rw [h3] at h
          simp only [Outcome.done.injEq] at h
          subst h
          exact sameGrid_trans (sameGrid_trans g1 g2)
            (initNeuronsBody_foldlM_sameGrid ext toFLOAT draws args.ranges _ _ _ h3)
  obtain ⟨gw, gh, _, gl⟩ := hgrid
  refine getStarterNeuronMatrix_returns net c ?_ hcount
  rw [gl, gw, gh, hnet]
  simp [reset, freeResources]

/-! ## Theorems: the state document -/

/-- C8, amended: `reset` is idempotent; after it the step counter is 0, every accumulator
element is 0, every starter flag is false and every synapse list is empty; and for two
states of the same configuration the states after `reset` agree in everything `reset`
assigns, while the random generator and the members of `m_si` other than `cNeurons` and
`deltaT` (the current epoch index among them) are those from before the call. -/
theorem C8_reset_idempotent (ext : Externals) (s : Network) :
    reset ext (reset ext s) = reset ext s ∧
    (reset ext s).g_simulationStep = 0 ∧
    (reset ext s).m_summationMap = List.replicate s.m_cNeurons 0 ∧
    (reset ext s).m_rgEndogenouslyActiveNeuronMap = List.replicate s.m_cNeurons false ∧
    (reset ext s).m_rgSynapseMap = List.replicate s.m_cNeurons [] ∧
    ∀ t, sameConfiguration s t →
      reset ext t = { reset ext s with
        rngCount := t.rngCount
        m_si := { t.m_si with cNeurons := s.m_cNeurons, deltaT := s.m_deltaT } } := by
  refine ⟨rfl, rfl, rfl, rfl, rfl, ?_⟩
  intro t h
  obtain ⟨h1, h2, h3, h4, h5, h6, h7, h8, h9, h10, h11, h12, h13, h14, h15, h16, h17, h18⟩ := h
  simp only [reset, freeResources, h1, h2, h3, h4, h5, h6, h7, h8, h9, h10, h11, h12, h13,
    h14, h15, h16, h17, h18]

/-- C8 as stated fails: the grid in the middle of a run at epoch 1 and at epoch 2 are
states of the configuration of the freshly built grid, and after `reset` the one has
`m_si.currentStep = 1` and the other `m_si.currentStep = 2`, so they cannot both equal
the reset of one fresh state. -/
theorem C8_counterexample_current_step_survives :
    sameConfiguration (midRunNetwork 1) (midRunNetwork 2) ∧
    sameConfiguration (midRunNetwork 1) gridNetwork ∧
    (reset ext0 (midRunNetwork 1)).m_si.currentStep = 1 ∧
    (reset ext0 (midRunNetwork 2)).m_si.currentStep = 2 ∧
    ¬ ∃ fresh : Network, reset ext0 (midRunNetwork 1) = reset ext0 fresh ∧
        reset ext0 (midRunNetwork 2) = reset ext0 fresh := by
  refine ⟨by simp [sameConfiguration, midRunNetwork], by simp [sameConfiguration, midRunNetwork],
    rfl, rfl, ?_⟩
  rintro ⟨fresh, h1, h2⟩
  have h := congrArg (fun n => n.m_si.currentStep) (h1.trans h2.symm)
  simp [reset, freeResources, midRunNetwork, gridNetwork, si0] at h

end BrainGrid
